import Mathlib

/-!
# wxImageList: credential cache, refresh and media listing

A shallow embedding of `src/main.go`.

* A Go `string` / `[]byte` is a list of bytes (`List Nat`, every entry below 256).
* `int` and `int64` are 64-bit two's-complement integers, held as `Int` and wrapped
  with `wrap64` where the Go arithmetic can overflow.
* The outside world (token file, clock, HTTP endpoints, disk faults) is an explicit
  `World` value threaded through every function; each effect is appended to a trace.
* `encoding/json` is embedded at the byte level for the credential file
  (`Marshal`, `Unmarshal` of `AccessToken`) and for the body of the listing response
  (`Decode` into `MaterialResponse`); the body of the refresh response is represented by the
  outcome of `json.NewDecoder(resp.Body).Decode`.
-/

namespace WxImageList

/-! ## Bytes and UTF-8 (`unicode/utf8`) -/

/-- A Go string: a sequence of bytes, not necessarily valid UTF-8. -/
abbrev GoString := List Nat

/-- Every entry is a byte. -/
def isBytes (s : GoString) : Bool := s.all (fun b => decide (b < 256))

/-- The rune `utf8.RuneError`, U+FFFD. -/
def RuneError : Nat := 0xFFFD

/-- A UTF-8 continuation byte, `0x80 ..= 0xBF`. -/
def isCont (b : Nat) : Bool := decide (0x80 ≤ b ∧ b ≤ 0xBF)

/-- Go `utf8.DecodeRune`: the first rune of `s` and its width in bytes.
Returns `(RuneError, 0)` on empty input and `(RuneError, 1)` on an invalid
or truncated encoding (overlong forms, surrogates and values above U+10FFFF are
invalid). The masks and shifts of the Go code are written with `%`, `*`, `+`. -/
def decodeRune (s : GoString) : Nat × Nat :=
  match s with
  | [] => (RuneError, 0)
  | b0 :: rest =>
    if b0 < 0x80 then (b0, 1)
    else if 0xC2 ≤ b0 ∧ b0 ≤ 0xDF then
      match rest with
      | b1 :: _ =>
        if isCont b1 then ((b0 % 32) * 64 + b1 % 64, 2) else (RuneError, 1)
      | _ => (RuneError, 1)
    else if 0xE0 ≤ b0 ∧ b0 ≤ 0xEF then
      match rest with
      | b1 :: b2 :: _ =>
        let lo := if b0 = 0xE0 then 0xA0 else 0x80
        let hi := if b0 = 0xED then 0x9F else 0xBF
        if lo ≤ b1 ∧ b1 ≤ hi ∧ isCont b2 then
          ((b0 % 16) * 4096 + (b1 % 64) * 64 + b2 % 64, 3)
        else (RuneError, 1)
      | _ => (RuneError, 1)
    else if 0xF0 ≤ b0 ∧ b0 ≤ 0xF4 then
      match rest with
      | b1 :: b2 :: b3 :: _ =>
        let lo := if b0 = 0xF0 then 0x90 else 0x80
        let hi := if b0 = 0xF4 then 0x8F else 0xBF
        if lo ≤ b1 ∧ b1 ≤ hi ∧ isCont b2 ∧ isCont b3 then
          ((b0 % 8) * 262144 + (b1 % 64) * 4096 + (b2 % 64) * 64 + b3 % 64, 4)
        else (RuneError, 1)
      | _ => (RuneError, 1)
    else (RuneError, 1)

/-- Go `utf8.EncodeRune` / `utf8.AppendRune`: surrogates and values above
U+10FFFF are encoded as U+FFFD. -/
def encodeRune (r : Nat) : GoString :=
  if r < 0x80 then [r]
  else if r < 0x800 then [0xC0 + r / 64, 0x80 + r % 64]
  else if 0x10FFFF < r ∨ (0xD800 ≤ r ∧ r ≤ 0xDFFF) then [0xEF, 0xBF, 0xBD]
  else if r < 0x10000 then [0xE0 + r / 4096, 0x80 + (r / 64) % 64, 0x80 + r % 64]
  else [0xF0 + r / 262144, 0x80 + (r / 4096) % 64, 0x80 + (r / 64) % 64, 0x80 + r % 64]

/-- Go `utf8.Valid` (fuel bounds the number of runes). -/
def validUTF8Aux : Nat → GoString → Bool
  | 0, s => s.isEmpty
  | fuel + 1, s =>
    match s with
    | [] => true
    | _ :: _ =>
      let p := decodeRune s
      if p.1 = RuneError ∧ p.2 = 1 then false
      else validUTF8Aux fuel (s.drop p.2)

/-- Go `utf8.ValidString`. -/
def validUTF8 (s : GoString) : Bool := validUTF8Aux s.length s

/-- The string with every invalid byte replaced by U+FFFD: `strings.ToValidUTF8`
with a replacement per byte, which is what `encoding/json` does on output. -/
def toValidUTF8Aux : Nat → GoString → GoString
  | 0, _ => []
  | fuel + 1, s =>
    match s with
    | [] => []
    | _ :: _ =>
      let p := decodeRune s
      if p.1 = RuneError ∧ p.2 = 1 then [0xEF, 0xBF, 0xBD] ++ toValidUTF8Aux fuel (s.drop 1)
      else s.take p.2 ++ toValidUTF8Aux fuel (s.drop p.2)

/-- See `toValidUTF8Aux`. -/
def toValidUTF8 (s : GoString) : GoString := toValidUTF8Aux s.length s

/-! ## Integers -/

/-- Two's-complement reduction to the `int64` range. -/
def wrap64 (x : Int) : Int := (x + 2 ^ 63) % 2 ^ 64 - 2 ^ 63

/-- The `int64` range. -/
def inInt64 (x : Int) : Prop := -(2 ^ 63) ≤ x ∧ x < 2 ^ 63

instance (x : Int) : Decidable (inInt64 x) := by unfold inInt64; infer_instance

/-- Decimal digits of `n`, most significant first, in ASCII, prepended to `acc`. -/
def natDigits : Nat → Nat → List Nat → List Nat
  | 0, n, acc => (48 + n % 10) :: acc
  | fuel + 1, n, acc =>
    if n < 10 then (48 + n) :: acc
    else natDigits fuel (n / 10) ((48 + n % 10) :: acc)

/-- Go `strconv.AppendInt(nil, x, 10)`. -/
def formatInt (x : Int) : List Nat :=
  if x < 0 then 45 :: natDigits x.natAbs x.natAbs [] else natDigits x.natAbs x.natAbs []

/-- Value of a run of ASCII decimal digits; `none` when a byte is not a digit. -/
def parseDigits : Nat → List Nat → Option Nat
  | acc, [] => some acc
  | acc, d :: ds => if 48 ≤ d ∧ d ≤ 57 then parseDigits (acc * 10 + (d - 48)) ds else none

/-- Go `strconv.ParseInt(s, 10, 64)`: an optional sign, at least one digit, nothing else,
and a value in the `int64` range. -/
def parseInt (s : List Nat) : Option Int :=
  let signed (neg : Bool) (ds : List Nat) : Option Int :=
    match ds with
    | [] => none
    | _ :: _ =>
      match parseDigits 0 ds with
      | none => none
      | some n =>
        let v : Int := if neg then -(n : Int) else (n : Int)
        if inInt64 v then some v else none
  match s with
  | 45 :: ds => signed true ds
  | 43 :: ds => signed false ds
  | ds => signed false ds

/-! ## `encoding/json`: output -/

/-- ASCII hexadecimal digit, lower case (`hex` in `encoding/json`). -/
def hexDigit (n : Nat) : Nat := if n < 10 then 48 + n else 87 + n

/-- One byte below `utf8.RuneSelf` as `appendString` writes it with `escapeHTML` set:
itself when it is in `htmlSafeSet`, a two-character escape for backslash, quote, BS, FF, LF, CR and TAB,
and a `u00XX` escape for the other control characters and for `<`, `>`, `&`. -/
def escapeASCII (b : Nat) : List Nat :=
  if b = 92 ∨ b = 34 then [92, b]
  else if b = 8 then [92, 98]
  else if b = 12 then [92, 102]
  else if b = 10 then [92, 110]
  else if b = 13 then [92, 114]
  else if b = 9 then [92, 116]
  else if b < 32 ∨ b = 60 ∨ b = 62 ∨ b = 38 then [92, 117, 48, 48, hexDigit (b / 16), hexDigit (b % 16)]
  else [b]

/-- The loop of `appendString` in `encoding/json` (between the two quotes): invalid UTF-8
bytes become the six-character escape of U+FFFD, U+2028 and U+2029 are escaped, every other rune is copied. -/
def appendStringBody : Nat → GoString → List Nat
  | 0, _ => []
  | fuel + 1, s =>
    match s with
    | [] => []
    | b :: rest =>
      if b < 0x80 then escapeASCII b ++ appendStringBody fuel rest
      else
        let p := decodeRune s
        if p.1 = RuneError ∧ p.2 = 1 then
          [92, 117, 102, 102, 102, 100] ++ appendStringBody fuel rest
        else if p.1 = 0x2028 ∨ p.1 = 0x2029 then
          [92, 117, 50, 48, 50, hexDigit (p.1 % 16)] ++ appendStringBody fuel (s.drop p.2)
        else s.take p.2 ++ appendStringBody fuel (s.drop p.2)

/-- A Go string as a JSON string literal (`appendString`). -/
def appendString (s : GoString) : List Nat :=
  [34] ++ appendStringBody s.length s ++ [34]

/-- The JSON key `access_token`. -/
def keyAccessToken : GoString := [97, 99, 99, 101, 115, 115, 95, 116, 111, 107, 101, 110]

/-- The JSON key `expires_at`. -/
def keyExpiresAt : GoString := [101, 120, 112, 105, 114, 101, 115, 95, 97, 116]

/-! ## `encoding/json`: input -/

/-- A parsed JSON value; a number keeps its literal. -/
inductive JValue where
  | null : JValue
  | bool (b : Bool) : JValue
  | num (lit : List Nat) : JValue
  | str (s : GoString) : JValue
  | arr (xs : List JValue) : JValue
  | obj (ms : List (GoString × JValue)) : JValue

/-- `maxNestingDepth` of the scanner. -/
def maxNestingDepth : Nat := 10000

/-- JSON white space: space, tab, carriage return, line feed. -/
def isSpace (c : Nat) : Bool := decide (c = 32 ∨ c = 9 ∨ c = 13 ∨ c = 10)

/-- Drops leading white space. -/
def skipWs : List Nat → List Nat
  | [] => []
  | c :: rest => if isSpace c then skipWs rest else c :: rest

/-- ASCII decimal digit. -/
def isDigit (c : Nat) : Bool := decide (48 ≤ c ∧ c ≤ 57)

/-- The longest prefix of digits, and what follows it. -/
def spanDigits : List Nat → List Nat × List Nat
  | [] => ([], [])
  | c :: rest =>
    if isDigit c then ((c :: (spanDigits rest).1), (spanDigits rest).2) else ([], c :: rest)

/-- Value of a hexadecimal digit (`getu4`). -/
def hexVal (c : Nat) : Option Nat :=
  if 48 ≤ c ∧ c ≤ 57 then some (c - 48)
  else if 97 ≤ c ∧ c ≤ 102 then some (c - 97 + 10)
  else if 65 ≤ c ∧ c ≤ 70 then some (c - 65 + 10)
  else none

/-- Go `getu4`: the code unit of a backslash-u escape at the head of `s`. -/
def getu4 (s : List Nat) : Option Nat :=
  match s with
  | 92 :: 117 :: a :: b :: c :: d :: _ =>
    match hexVal a, hexVal b, hexVal c, hexVal d with
    | some x, some y, some z, some w => some (((x * 16 + y) * 16 + z) * 16 + w)
    | _, _, _, _ => none
  | _ => none

/-- Go `utf16.IsSurrogate`. -/
def isSurrogate (r : Nat) : Bool := decide (0xD800 ≤ r ∧ r < 0xE000)

/-- Go `utf16.DecodeRune`: the rune of a surrogate pair, U+FFFD when it is not one. -/
def utf16DecodeRune (r1 r2 : Nat) : Nat :=
  if 0xD800 ≤ r1 ∧ r1 < 0xDC00 ∧ 0xDC00 ≤ r2 ∧ r2 < 0xE000 then
    (r1 - 0xD800) * 1024 + (r2 - 0xDC00) + 0x10000
  else RuneError

/-- The character a two-character escape stands for. -/
def simpleEscape (e : Nat) : Option Nat :=
  if e = 34 ∨ e = 92 ∨ e = 47 then some e
  else if e = 98 then some 8
  else if e = 102 then some 12
  else if e = 110 then some 10
  else if e = 114 then some 13
  else if e = 116 then some 9
  else none

/-- Puts decoded bytes in front of the rest of a decoded string. -/
def consBytes (pre : List Nat) (r : Option (GoString × List Nat)) : Option (GoString × List Nat) :=
  match r with
  | none => none
  | some (t, rest) => some (pre ++ t, rest)

/-- A JSON string literal after its opening quote: the scanner's check of the literal
fused with `unquoteBytes`. Returns the decoded string and the input after the closing
quote; `none` on a control character, a bad escape or a missing closing quote. Invalid
UTF-8 and unpaired surrogates decode to U+FFFD. -/
def unquote : Nat → List Nat → Option (GoString × List Nat)
  | 0, _ => none
  | fuel + 1, s =>
    match s with
    | [] => none
    | c :: rest =>
      if c = 34 then some ([], rest)
      else if c = 92 then
        match rest with
        | [] => none
        | e :: rest1 =>
          if e = 117 then
            match getu4 s with
            | none => none
            | some rr =>
              let rest2 := s.drop 6
              if isSurrogate rr then
                match getu4 rest2 with
                | some rr1 =>
                  if utf16DecodeRune rr rr1 ≠ RuneError then
                    consBytes (encodeRune (utf16DecodeRune rr rr1)) (unquote fuel (rest2.drop 6))
                  else consBytes (encodeRune RuneError) (unquote fuel rest2)
                | none => consBytes (encodeRune RuneError) (unquote fuel rest2)
              else consBytes (encodeRune rr) (unquote fuel rest2)
          else
            match simpleEscape e with
            | some ch => consBytes [ch] (unquote fuel rest1)
            | none => none
      else if c < 32 then none
      else if c < 0x80 then consBytes [c] (unquote fuel rest)
      else consBytes (encodeRune (decodeRune s).1) (unquote fuel (s.drop (decodeRune s).2))

/-- A JSON number literal at the head of `s` (the scanner's number states): an optional
minus, `0` or a non-zero digit followed by digits, an optional fraction, an optional exponent.
Returns the literal and what follows it. -/
def scanNumber (s : List Nat) : Option (List Nat × List Nat) :=
  let sign : List Nat := match s with
    | 45 :: _ => [45]
    | _ => []
  let s1 := s.drop sign.length
  match s1 with
  | [] => none
  | d :: t =>
    if ¬ isDigit d then none
    else
      let ip : List Nat × List Nat := if d = 48 then ([48], t) else (d :: (spanDigits t).1, (spanDigits t).2)
      let fr : Option (List Nat × List Nat) :=
        match ip.2 with
        | 46 :: u => if (spanDigits u).1 = [] then none else some (46 :: (spanDigits u).1, (spanDigits u).2)
        | u => some ([], u)
      match fr with
      | none => none
      | some (fl, u) =>
        let ex : Option (List Nat × List Nat) :=
          match u with
          | e :: v =>
            if e = 101 ∨ e = 69 then
              let sg : List Nat := match v with
                | 43 :: _ => [43]
                | 45 :: _ => [45]
                | _ => []
              let v1 := v.drop sg.length
              if (spanDigits v1).1 = [] then none
              else some (e :: sg ++ (spanDigits v1).1, (spanDigits v1).2)
            else some ([], u)
          | [] => some ([], u)
        match ex with
        | none => none
        | some (el, w) => some (sign ++ ip.1 ++ fl ++ el, w)

mutual
/-- One JSON value at the head of `s` (no leading white space), with `depth` containers
already open. Returns the value and the input after it. -/
def parseValue : Nat → Nat → List Nat → Option (JValue × List Nat)
  | 0, _, _ => none
  | fuel + 1, depth, s =>
    match s with
    | [] => none
    | c :: rest =>
      if c = 123 then
        if maxNestingDepth < depth + 1 then none
        else
          match skipWs rest with
          | 125 :: r => some (JValue.obj [], r)
          | r =>
            match parseMembers fuel (depth + 1) r with
            | none => none
            | some (ms, r1) => some (JValue.obj ms, r1)
      else if c = 91 then
        if maxNestingDepth < depth + 1 then none
        else
          match skipWs rest with
          | 93 :: r => some (JValue.arr [], r)
          | r =>
            match parseElems fuel (depth + 1) r with
            | none => none
            | some (xs, r1) => some (JValue.arr xs, r1)
      else if c = 34 then
        match unquote rest.length rest with
        | none => none
        | some (t, r) => some (JValue.str t, r)
      else if c = 45 ∨ isDigit c then
        match scanNumber s with
        | none => none
        | some (lit, r) => some (JValue.num lit, r)
      else if [116, 114, 117, 101].isPrefixOf s then some (JValue.bool true, s.drop 4)
      else if [102, 97, 108, 115, 101].isPrefixOf s then some (JValue.bool false, s.drop 5)
      else if [110, 117, 108, 108].isPrefixOf s then some (JValue.null, s.drop 4)
      else none
/-- The members of an object from its first key to the closing brace. -/
def parseMembers : Nat → Nat → List Nat → Option (List (GoString × JValue) × List Nat)
  | 0, _, _ => none
  | fuel + 1, depth, s =>
    match s with
    | [] => none
    | q :: rest =>
      if q = 34 then
        match unquote rest.length rest with
        | none => none
        | some (key, r1) =>
          match skipWs r1 with
          | [] => none
          | colon :: r2 =>
            if colon = 58 then
              match parseValue fuel depth (skipWs r2) with
              | none => none
              | some (v, r3) =>
                match skipWs r3 with
                | [] => none
                | sep :: r4 =>
                  if sep = 44 then
                    match parseMembers fuel depth (skipWs r4) with
                    | none => none
                    | some (ms, r5) => some ((key, v) :: ms, r5)
                  else if sep = 125 then some ([(key, v)], r4)
                  else none
            else none
      else none
/-- The elements of an array from its first element to the closing bracket. -/
def parseElems : Nat → Nat → List Nat → Option (List JValue × List Nat)
  | 0, _, _ => none
  | fuel + 1, depth, s =>
    match parseValue fuel depth s with
    | none => none
    | some (v, r1) =>
      match skipWs r1 with
      | [] => none
      | sep :: r2 =>
        if sep = 44 then
          match parseElems fuel depth (skipWs r2) with
          | none => none
          | some (xs, r3) => some (v :: xs, r3)
        else if sep = 93 then some ([v], r2)
        else none
end

/-- A whole JSON document (`checkValid`): white space, one value, white space, end of input.
Every nested call consumes at least one byte every second step, so the fuel is never
exhausted. -/
def parseDocument (data : List Nat) : Option JValue :=
  match parseValue (2 * data.length + 2) 0 (skipWs data) with
  | none => none
  | some (v, rest) => if skipWs rest = [] then some v else none

/-! ## Records and errors of `main.go` -/

/-- Go `Config`: what `config.yaml` holds. -/
structure Config where
  AppID : GoString
  Secret : GoString
deriving DecidableEq

/-- Go `AccessToken`: the credential kept in the token file. -/
structure AccessToken where
  Token : GoString
  ExpiresAt : Int
deriving DecidableEq

/-- Go `TokenResponse`: the decoded body of the refresh endpoint. -/
structure TokenResponse where
  AccessToken : GoString
  ExpiresIn : Int
  ErrCode : Int
  ErrMsg : GoString
deriving DecidableEq

/-- Go `MaterialItem`: fields `media_id`, `name`, `url` of one listed asset. -/
structure MaterialItem where
  MediaID : GoString
  Name : GoString
  URL : GoString
deriving DecidableEq

/-- Go `MaterialResponse`: the decoded body of the listing endpoint. `Item` is `none` for
a nil slice (key absent or `null`) and `some xs` for a present list, the empty one included. -/
structure MaterialResponse where
  Item : Option (List MaterialItem)
  ErrCode : Int
  ErrMsg : GoString
deriving DecidableEq

/-- Go `error` values: the library errors (`os`, `encoding/json`, `yaml`, `net/http`) and one
constructor per `fmt.Errorf` and `log.Fatalf` format string of `main.go`, holding the
formatted arguments. -/
inductive Err where
  | os : Err
  | jsonSyntax : Err
  | jsonType : Err
  | yaml : Err
  | transport : Err
  | readConfigFailed (cause : Err) : Err
  | parseConfigFailed (cause : Err) : Err
  | configMissingField : Err
  | parseTokenFileFailed (cause : Err) : Err
  | marshalTokenFailed (cause : Err) : Err
  | writeTokenFailed (cause : Err) : Err
  | saveTokenFailed (cause : Err) : Err
  | networkFailed (cause : Err) : Err
  | tokenStatus (status : Nat) : Err
  | parseTokenResponseFailed (cause : Err) : Err
  | apiError (code : Int) (msg : GoString) : Err
  | tokenResponseInvalid : Err
  | marshalRequestFailed (cause : Err) : Err
  | materialStatus (status : Nat) : Err
  | parseMaterialResponseFailed (cause : Err) : Err
  | materialResponseInvalid : Err
  | fatalLoadConfig (cause : Err) : Err
  | fatalAccessToken (cause : Err) : Err
  | fatalMediaItems (cause : Err) : Err
deriving DecidableEq

instance instDecidableEqExcept {ε α : Type} [DecidableEq ε] [DecidableEq α] :
    DecidableEq (Except ε α) := fun a b =>
  match a, b with
  | Except.ok x, Except.ok y =>
    if h : x = y then isTrue (by rw [h]) else isFalse (fun h1 => h (Except.ok.inj h1))
  | Except.error x, Except.error y =>
    if h : x = y then isTrue (by rw [h]) else isFalse (fun h1 => h (Except.error.inj h1))
  | Except.ok _, Except.error _ => isFalse (fun h1 => Except.noConfusion h1)
  | Except.error _, Except.ok _ => isFalse (fun h1 => Except.noConfusion h1)

/-! ## `encoding/json`: `Marshal` and `Unmarshal` of `AccessToken` -/

/-- Go `json.Marshal(token)` for an `AccessToken`: the object with the keys `access_token`
and `expires_at` in field order. It has no failing case for a string and an `int64`. -/
def Marshal (token : AccessToken) : Except Err (List Nat) :=
  Except.ok ([123] ++ appendString keyAccessToken ++ [58] ++ appendString token.Token ++ [44]
    ++ appendString keyExpiresAt ++ [58] ++ formatInt token.ExpiresAt ++ [125])

/-- The smallest rune of the case-folding orbit, for the two runes outside ASCII whose orbit
reaches ASCII (U+017F long s, U+212A Kelvin sign); no other rune can fold onto the ASCII
field names, so other runes are left as they are. -/
def foldRune (r : Nat) : Nat := if r = 0x17F then 83 else if r = 0x212A then 75 else r

/-- Go `foldName`: the key with ASCII letters in upper case and other runes folded. -/
def foldName : Nat → GoString → GoString
  | 0, _ => []
  | fuel + 1, s =>
    match s with
    | [] => []
    | c :: rest =>
      if c < 0x80 then (if 97 ≤ c ∧ c ≤ 122 then c - 32 else c) :: foldName fuel rest
      else encodeRune (foldRune (decodeRune s).1) ++ foldName fuel (s.drop (decodeRune s).2)

/-- Whether an object key selects the struct field tagged `name`: by exact name, else by
folded name. -/
def keyMatches (name key : GoString) : Bool :=
  decide (key = name) || decide (foldName key.length key = foldName name.length name)

/-- Storing one JSON value into the field `Token` (`literalStore` on a string field): a
string is stored, `null` changes nothing, anything else is an `UnmarshalTypeError`. -/
def storeToken (v : JValue) (t : AccessToken) : Except Err AccessToken :=
  match v with
  | JValue.str x => Except.ok { t with Token := x }
  | JValue.null => Except.ok t
  | _ => Except.error Err.jsonType

/-- Storing one JSON value into the field `ExpiresAt` (`literalStore` on an `int64` field):
a number literal that `strconv.ParseInt` accepts is stored, `null` changes nothing, anything
else is an `UnmarshalTypeError`. -/
def storeExpiresAt (v : JValue) (t : AccessToken) : Except Err AccessToken :=
  match v with
  | JValue.num lit =>
    match parseInt lit with
    | some n => Except.ok { t with ExpiresAt := n }
    | none => Except.error Err.jsonType
  | JValue.null => Except.ok t
  | _ => Except.error Err.jsonType

/-- The loop of `decodeState.object` over the members of the document, for an `AccessToken`:
a key selects a field by `keyMatches`, an unknown key is skipped, a later member overrides an
earlier one. A type error makes the whole call fail. -/
def storeFields : List (GoString × JValue) → AccessToken → Except Err AccessToken
  | [], t => Except.ok t
  | (key, v) :: ms, t =>
    if keyMatches keyAccessToken key then
      match storeToken v t with
      | Except.ok t1 => storeFields ms t1
      | Except.error e => Except.error e
    else if keyMatches keyExpiresAt key then
      match storeExpiresAt v t with
      | Except.ok t1 => storeFields ms t1
      | Except.error e => Except.error e
    else storeFields ms t

/-- Go `json.Unmarshal(data, &token)` into a zero `AccessToken`. -/
def Unmarshal (data : List Nat) : Except Err AccessToken :=
  match parseDocument data with
  | none => Except.error Err.jsonSyntax
  | some (JValue.obj ms) => storeFields ms { Token := [], ExpiresAt := 0 }
  | some JValue.null => Except.ok { Token := [], ExpiresAt := 0 }
  | some _ => Except.error Err.jsonType

/-! ## `encoding/json`: `Decode` of `MaterialResponse` -/

/-- The JSON key `media_id`. -/
def keyMediaID : GoString := [109, 101, 100, 105, 97, 95, 105, 100]

/-- The JSON key `name`. -/
def keyName : GoString := [110, 97, 109, 101]

/-- The JSON key `url`. -/
def keyURL : GoString := [117, 114, 108]

/-- The JSON key `item`. -/
def keyItem : GoString := [105, 116, 101, 109]

/-- The JSON key `errcode`. -/
def keyErrCode : GoString := [101, 114, 114, 99, 111, 100, 101]

/-- The JSON key `errmsg`. -/
def keyErrMsg : GoString := [101, 114, 114, 109, 115, 103]

/-- Storing one JSON value into a string field holding `old` (`literalStore`): a string is
stored, `null` changes nothing, anything else is an `UnmarshalTypeError`. -/
def storeString (v : JValue) (old : GoString) : Except Err GoString :=
  match v with
  | JValue.str x => Except.ok x
  | JValue.null => Except.ok old
  | _ => Except.error Err.jsonType

/-- Storing one JSON value into an `int` field holding `old` (`literalStore`): a number
literal that `strconv.ParseInt` accepts is stored, `null` changes nothing, anything else is
an `UnmarshalTypeError`. -/
def storeInt (v : JValue) (old : Int) : Except Err Int :=
  match v with
  | JValue.num lit =>
    match parseInt lit with
    | some n => Except.ok n
    | none => Except.error Err.jsonType
  | JValue.null => Except.ok old
  | _ => Except.error Err.jsonType

/-- The loop of `decodeState.object` over the members of one element, for a `MaterialItem`
that starts as `it`. -/
def storeItemFields : List (GoString × JValue) → MaterialItem → Except Err MaterialItem
  | [], it => Except.ok it
  | (key, v) :: ms, it =>
    if keyMatches keyMediaID key then
      match storeString v it.MediaID with
      | Except.ok x => storeItemFields ms { it with MediaID := x }
      | Except.error e => Except.error e
    else if keyMatches keyName key then
      match storeString v it.Name with
      | Except.ok x => storeItemFields ms { it with Name := x }
      | Except.error e => Except.error e
    else if keyMatches keyURL key then
      match storeString v it.URL with
      | Except.ok x => storeItemFields ms { it with URL := x }
      | Except.error e => Except.error e
    else storeItemFields ms it

/-- Go `decodeState.value` into a slice element that holds `base`: an object fills its
fields, `null` changes nothing, anything else is an `UnmarshalTypeError`. -/
def storeItem (v : JValue) (base : MaterialItem) : Except Err MaterialItem :=
  match v with
  | JValue.obj ms => storeItemFields ms base
  | JValue.null => Except.ok base
  | _ => Except.error Err.jsonType

/-- The loop of `decodeState.array` into a slice: element `i` of the document is decoded
into element `i` of the backing array when there is one (its earlier content is the starting
value) and into a zero element otherwise; the result keeps the document's order. -/
def storeItems : List JValue → List MaterialItem → Except Err (List MaterialItem)
  | [], _ => Except.ok []
  | x :: xs, backing =>
    match storeItem x (backing.headD { MediaID := [], Name := [], URL := [] }) with
    | Except.error e => Except.error e
    | Except.ok it =>
      match storeItems xs backing.tail with
      | Except.error e => Except.error e
      | Except.ok its => Except.ok (it :: its)

/-- The `MaterialResponse` being filled by the decoder, with the elements of the backing
array of `Item` that lie beyond its length (`spare`). -/
structure ListingState where
  Item : Option (List MaterialItem)
  spare : List MaterialItem
  ErrCode : Int
  ErrMsg : GoString

/-- Go `decodeState.value` into the field `Item`: `null` makes the slice nil, an empty
array makes it a fresh empty slice, a non-empty array is decoded element by element over the
backing array and the slice is cut to the document's length; anything else is an
`UnmarshalTypeError`. -/
def storeItemSlice (v : JValue) (st : ListingState) : Except Err ListingState :=
  match v with
  | JValue.null => Except.ok { st with Item := none, spare := [] }
  | JValue.arr [] => Except.ok { st with Item := some [], spare := [] }
  | JValue.arr (x :: xs) =>
    match storeItems (x :: xs) (st.Item.getD [] ++ st.spare) with
    | Except.error e => Except.error e
    | Except.ok its =>
      Except.ok { st with Item := some its,
                          spare := (st.Item.getD [] ++ st.spare).drop (x :: xs).length }
  | _ => Except.error Err.jsonType

/-- The loop of `decodeState.object` over the members of the document, for a
`MaterialResponse`. -/
def storeResponseFields : List (GoString × JValue) → ListingState → Except Err ListingState
  | [], st => Except.ok st
  | (key, v) :: ms, st =>
    if keyMatches keyItem key then
      match storeItemSlice v st with
      | Except.ok st1 => storeResponseFields ms st1
      | Except.error e => Except.error e
    else if keyMatches keyErrCode key then
      match storeInt v st.ErrCode with
      | Except.ok n => storeResponseFields ms { st with ErrCode := n }
      | Except.error e => Except.error e
    else if keyMatches keyErrMsg key then
      match storeString v st.ErrMsg with
      | Except.ok x => storeResponseFields ms { st with ErrMsg := x }
      | Except.error e => Except.error e
    else storeResponseFields ms st

/-- Go `Decoder.readValue` on a whole body: white space, then one JSON value; what follows
the value is left unread. -/
def readValue (data : List Nat) : Option JValue :=
  match parseValue (2 * data.length + 2) 0 (skipWs data) with
  | none => none
  | some (v, _) => some v

/-- Go `json.NewDecoder(resp.Body).Decode(&materialResp)` into a zero `MaterialResponse`,
for a body that was read completely. -/
def DecodeMaterialResponse (body : List Nat) : Except Err MaterialResponse :=
  match readValue body with
  | none => Except.error Err.jsonSyntax
  | some (JValue.obj ms) =>
    match storeResponseFields ms { Item := none, spare := [], ErrCode := 0, ErrMsg := [] } with
    | Except.error e => Except.error e
    | Except.ok st => Except.ok { Item := st.Item, ErrCode := st.ErrCode, ErrMsg := st.ErrMsg }
  | some JValue.null => Except.ok { Item := none, ErrCode := 0, ErrMsg := [] }
  | some _ => Except.error Err.jsonType

/-! ## The outside world -/

/-- What `os.ReadFile` followed by `yaml.Unmarshal` makes of a configuration file. -/
inductive ConfigDoc where
  | unreadable : ConfigDoc
  | malformed : ConfigDoc
  | parsed (config : Config) : ConfigDoc

/-- Outcome of one HTTP round trip: a transport error, or a response with its status code
and its body. For the refresh endpoint the body is what `json.NewDecoder(resp.Body).Decode`
makes of it (`none`: a decoding error); for the listing endpoint it is the bytes of the body
(`none`: the body could not be read to its end). -/
inductive HttpResult (α : Type) where
  | failed : HttpResult α
  | response (status : Nat) (body : Option α) : HttpResult α

/-- Observable effects, in program order. -/
inductive Event where
  | readFile (name : GoString) : Event
  | writeFile (name : GoString) (data : List Nat) : Event
  | now : Event
  | httpGet (url : GoString) : Event
  | httpPost (url : GoString) (contentType : GoString) (body : List Nat) : Event
  | printItem (item : MaterialItem) : Event
deriving DecidableEq

/-- The environment of one run. `clock`, the two endpoints and `diskFault` are oracles indexed
by the number of earlier clock readings, requests and writes. `diskFault k = none` lets the
write number `k` succeed; `some left` makes it fail and leaves the token file as `left`. -/
structure World where
  configDoc : GoString → ConfigDoc
  tokenFile : Option (List Nat)
  clock : Nat → Int
  ticks : Nat
  tokenEndpoint : Nat → GoString → HttpResult TokenResponse
  materialEndpoint : Nat → GoString → List Nat → HttpResult (List Nat)
  sent : Nat
  diskFault : Nat → Option (Option (List Nat))
  writes : Nat
  trace : List Event

/-- Whether an event is a network call. -/
def Event.isNetwork : Event → Bool
  | Event.httpGet _ => true
  | Event.httpPost _ _ _ => true
  | _ => false

/-- Whether an event writes a file. -/
def Event.isWrite : Event → Bool
  | Event.writeFile _ _ => true
  | _ => false

/-- ASCII text as bytes. -/
def ascii (s : String) : GoString := s.toList.map Char.toNat

/-- Go `tokenFile`. -/
def tokenFile : GoString := ascii "access_token.json"

/-- The configuration file `main` loads. -/
def configFile : GoString := ascii "config.yaml"

/-- Go `time.Now().Unix()`. -/
def timeNowUnix (w : World) : Int × World :=
  (w.clock w.ticks, { w with ticks := w.ticks + 1, trace := w.trace ++ [Event.now] })

/-! ## The functions of `main.go`

A Go function returning `(T, error)` returns the pair `(value, err)` here, `err = none` being
the nil error, together with the world it leaves behind. -/

/-- Go `loadConfig`. -/
def loadConfig (filename : GoString) (w : World) : (Config × Option Err) × World :=
  let w1 := { w with trace := w.trace ++ [Event.readFile filename] }
  match w.configDoc filename with
  | ConfigDoc.unreadable => (({ AppID := [], Secret := [] }, some (Err.readConfigFailed Err.os)), w1)
  | ConfigDoc.malformed => (({ AppID := [], Secret := [] }, some (Err.parseConfigFailed Err.yaml)), w1)
  | ConfigDoc.parsed config =>
    if config.AppID = [] ∨ config.Secret = [] then
      (({ AppID := [], Secret := [] }, some Err.configMissingField), w1)
    else ((config, none), w1)

/-- Go `readAccessToken`. -/
def readAccessToken (w : World) : (AccessToken × Option Err) × World :=
  let w1 := { w with trace := w.trace ++ [Event.readFile tokenFile] }
  match w.tokenFile with
  | none => (({ Token := [], ExpiresAt := 0 }, some Err.os), w1)
  | some data =>
    match Unmarshal data with
    | Except.error e => (({ Token := [], ExpiresAt := 0 }, some (Err.parseTokenFileFailed e)), w1)
    | Except.ok token => ((token, none), w1)

/-- Go `saveAccessToken`. -/
def saveAccessToken (token : AccessToken) (w : World) : Option Err × World :=
  match Marshal token with
  | Except.error e => (some (Err.marshalTokenFailed e), w)
  | Except.ok data =>
    let w1 := { w with writes := w.writes + 1, trace := w.trace ++ [Event.writeFile tokenFile data] }
    match w.diskFault w.writes with
    | some left => (some (Err.writeTokenFailed Err.os), { w1 with tokenFile := left })
    | none => (none, { w1 with tokenFile := some data })

/-- The URL of the refresh request. -/
def tokenURL (config : Config) : GoString :=
  ascii "https://api.weixin.qq.com/cgi-bin/token?grant_type=client_credential&appid="
    ++ config.AppID ++ ascii "&secret=" ++ config.Secret

/-- Go `fetchNewAccessToken`. `tokenResp.ExpiresIn-5` is an `int` subtraction and the sum
with the clock an `int64` addition; both wrap. -/
def fetchNewAccessToken (config : Config) (w : World) : (AccessToken × Option Err) × World :=
  let url := tokenURL config
  let w1 := { w with sent := w.sent + 1, trace := w.trace ++ [Event.httpGet url] }
  match w.tokenEndpoint w.sent url with
  | HttpResult.failed =>
    (({ Token := [], ExpiresAt := 0 }, some (Err.networkFailed Err.transport)), w1)
  | HttpResult.response status body =>
    if status ≠ 200 then (({ Token := [], ExpiresAt := 0 }, some (Err.tokenStatus status)), w1)
    else
      match body with
      | none =>
        (({ Token := [], ExpiresAt := 0 }, some (Err.parseTokenResponseFailed Err.jsonSyntax)), w1)
      | some tokenResp =>
        if tokenResp.AccessToken ≠ [] ∧ tokenResp.ExpiresIn ≠ 0 then
          let expiresAt := wrap64 ((timeNowUnix w1).1 + wrap64 (tokenResp.ExpiresIn - 5))
          (({ Token := tokenResp.AccessToken, ExpiresAt := expiresAt }, none), (timeNowUnix w1).2)
        else if tokenResp.ErrCode ≠ 0 then
          (({ Token := [], ExpiresAt := 0 },
            some (Err.apiError tokenResp.ErrCode tokenResp.ErrMsg)), w1)
        else (({ Token := [], ExpiresAt := 0 }, some Err.tokenResponseInvalid), w1)

/-- Lines 110 to 119 of `getAccessToken`: what it does once the cache test has failed. -/
def refreshAccessToken (config : Config) (w : World) : (GoString × Option Err) × World :=
  match fetchNewAccessToken config w with
  | ((_, some e), w1) => (([], some e), w1)
  | ((newToken, none), w1) =>
    match saveAccessToken newToken w1 with
    | (some e, w2) => (([], some (Err.saveTokenFailed e)), w2)
    | (none, w2) => ((newToken.Token, none), w2)

/-- Go `getAccessToken`. The clock is read only when `readAccessToken` returned no error
(the right operand of `&&` is evaluated only then). -/
def getAccessToken (config : Config) (w : World) : (GoString × Option Err) × World :=
  match readAccessToken w with
  | ((token, none), w1) =>
    if token.ExpiresAt > (timeNowUnix w1).1 then ((token.Token, none), (timeNowUnix w1).2)
    else refreshAccessToken config (timeNowUnix w1).2
  | ((_, some _), w1) => refreshAccessToken config w1

/-- The URL of the listing request. -/
def materialURL (accessToken : GoString) : GoString :=
  ascii "https://api.weixin.qq.com/cgi-bin/material/batchget_material?access_token=" ++ accessToken

/-- Go `json.Marshal(MaterialRequest{Type: "image", Offset: 0, Count: 20})`, which cannot
fail. -/
def materialRequestBody : List Nat :=
  ascii "\x7b\"type\":\"image\",\"offset\":0,\"count\":20\x7d"

/-- Go `fetchMediaItems`; the returned slice is `none` when it is nil. -/
def fetchMediaItems (accessToken : GoString) (w : World) :
    (Option (List MaterialItem) × Option Err) × World :=
  let url := materialURL accessToken
  let reqBody := materialRequestBody
  let w1 := { w with sent := w.sent + 1,
                     trace := w.trace ++ [Event.httpPost url (ascii "application/json") reqBody] }
  match w.materialEndpoint w.sent url reqBody with
  | HttpResult.failed => ((none, some (Err.networkFailed Err.transport)), w1)
  | HttpResult.response status body =>
    if status ≠ 200 then ((none, some (Err.materialStatus status)), w1)
    else
      match body with
      | none => ((none, some (Err.parseMaterialResponseFailed Err.transport)), w1)
      | some data =>
        match DecodeMaterialResponse data with
        | Except.error e => ((none, some (Err.parseMaterialResponseFailed e)), w1)
        | Except.ok materialResp =>
          match materialResp.Item with
          | some items => ((some items, none), w1)
          | none =>
            if materialResp.ErrCode ≠ 0 then
              ((none, some (Err.apiError materialResp.ErrCode materialResp.ErrMsg)), w1)
            else ((none, some Err.materialResponseInvalid), w1)

/-- Go `main`: `some e` when a `log.Fatalf` ends the run, `none` when the run reaches its end,
having printed one line per item in order. -/
def main (w : World) : Option Err × World :=
  match loadConfig configFile w with
  | ((_, some e), w1) => (some (Err.fatalLoadConfig e), w1)
  | ((config, none), w1) =>
    match getAccessToken config w1 with
    | ((_, some e), w2) => (some (Err.fatalAccessToken e), w2)
    | ((accessToken, none), w2) =>
      match fetchMediaItems accessToken w2 with
      | ((_, some e), w3) => (some (Err.fatalMediaItems e), w3)
      | ((items, none), w3) =>
        (none, { w3 with trace := w3.trace ++ (items.getD []).map Event.printItem })

/-! ## Vocabulary of the statements -/

/-- The world in which lines 110 to 119 of `getAccessToken` run when the cache test fails:
the token file has been read, and the clock too when the file parsed. -/
def afterCacheTest (w : World) : World :=
  match readAccessToken w with
  | ((_, none), w1) => (timeNowUnix w1).2
  | ((_, some _), w1) => w1

/-- The bytes `saveAccessToken` hands to `os.WriteFile`. -/
def tokenFileBytes (token : AccessToken) : List Nat :=
  [123] ++ appendString keyAccessToken ++ [58] ++ appendString token.Token ++ [44]
    ++ appendString keyExpiresAt ++ [58] ++ formatInt token.ExpiresAt ++ [125]

/-- A decoding outcome other than the error `(RuneError, 1)`. -/
def decodesOk (s : GoString) : Prop := ¬ ((decodeRune s).1 = RuneError ∧ (decodeRune s).2 = 1)

/-- Whether `x` is the JSON string `s`. -/
def isStringValue (x : JValue) (s : GoString) : Bool :=
  match x with
  | JValue.str t => decide (t = s)
  | _ => false

/-- The members `ms` of a JSON object give the key `name` the string `s`: a member with
exactly this key holds the string `s`, and so does every member whose key selects the same
struct field. -/
def memberIsString (ms : List (GoString × JValue)) (name s : GoString) : Bool :=
  ms.any (fun m => decide (m.1 = name) && isStringValue m.2 s)
    && ms.all (fun m => !keyMatches name m.1 || isStringValue m.2 s)

/-- The JSON value `v` is an object whose `media_id`, `name` and `url` are the strings
`it.MediaID`, `it.Name` and `it.URL`; other members are free. -/
def representsItem (v : JValue) (it : MaterialItem) : Bool :=
  match v with
  | JValue.obj ms =>
    memberIsString ms keyMediaID it.MediaID && memberIsString ms keyName it.Name
      && memberIsString ms keyURL it.URL
  | _ => false

/-- The JSON values `xs` are, position by position, objects for the items `items`. -/
def representsItems : List JValue → List MaterialItem → Bool
  | [], [] => true
  | x :: xs, it :: its => representsItem x it && representsItems xs its
  | _, _ => false

/-- The JSON value `v` is an array whose elements are objects for `items`, in order. -/
def isListingValue (v : JValue) (items : List MaterialItem) : Bool :=
  match v with
  | JValue.arr xs => representsItems xs items
  | _ => false

/-- Whether `v` is `null` or a number literal `strconv.ParseInt` accepts. -/
def isIntOrNull (v : JValue) : Bool :=
  match v with
  | JValue.num lit => (parseInt lit).isSome
  | JValue.null => true
  | _ => false

/-- Whether `v` is `null` or a string. -/
def isStringOrNull (v : JValue) : Bool :=
  match v with
  | JValue.str _ => true
  | JValue.null => true
  | _ => false

/-- The members `ms` of the response object carry the item list `items`: a member with the
key `item` holds it, as does every member whose key selects the field `Item`; and the members
that select `ErrCode` and `ErrMsg` have values of the field's type. -/
def membersCarry (ms : List (GoString × JValue)) (items : List MaterialItem) : Bool :=
  ms.any (fun m => decide (m.1 = keyItem) && isListingValue m.2 items)
    && ms.all (fun m => !keyMatches keyItem m.1 || isListingValue m.2 items)
    && ms.all (fun m => !keyMatches keyErrCode m.1 || isIntOrNull m.2)
    && ms.all (fun m => !keyMatches keyErrMsg m.1 || isStringOrNull m.2)

/-- The body of a listing response is a JSON object that carries the item list `items`
(see `membersCarry`), whatever its white space, its other members and their order. -/
def bodyCarries (body : List Nat) (items : List MaterialItem) : Bool :=
  match readValue body with
  | some (JValue.obj ms) => membersCarry ms items
  | _ => false

/-- The network calls of a trace, in order. -/
def networkCalls (t : List Event) : List Event := t.filter Event.isNetwork

/-- The file writes of a trace, in order. -/
def fileWrites (t : List Event) : List Event := t.filter Event.isWrite

/-! ## Sample inputs -/

/-- A configuration with both fields set. -/
def sampleConfig : Config := { AppID := ascii "wx1", Secret := ascii "s3" }

/-- A world with the given token file and clock, a refresh endpoint that always answers
`resp`, a listing endpoint that always answers `listing`, and writes that all meet `fault`. -/
def sampleWorld (file : Option (List Nat)) (clock : Nat → Int) (resp : HttpResult TokenResponse)
    (fault : Option (Option (List Nat))) (listing : HttpResult (List Nat)) : World :=
  { configDoc := fun _ => ConfigDoc.parsed sampleConfig,
    tokenFile := file,
    clock := clock,
    ticks := 0,
    tokenEndpoint := fun _ _ => resp,
    materialEndpoint := fun _ _ _ => listing,
    sent := 0,
    diskFault := fun _ => fault,
    writes := 0,
    trace := [] }

/-- A token file holding the token `tok` with expiry 100. -/
def sampleTokenFile : List Nat := ascii "\x7b\"access_token\":\"tok\",\"expires_at\":100\x7d"

/-- A world whose configuration file parses to `config`. -/
def sampleConfigWorld (config : Config) : World :=
  { sampleWorld none (fun _ => 0) HttpResult.failed none HttpResult.failed with
    configDoc := fun _ => ConfigDoc.parsed config }

/-- Three listed assets. -/
def sampleItems : List MaterialItem :=
  [{ MediaID := ascii "m1", Name := ascii "a.png", URL := ascii "http://x/a" },
   { MediaID := ascii "m2", Name := ascii "b.png", URL := ascii "http://x/b" },
   { MediaID := ascii "m3", Name := ascii "c.png", URL := ascii "http://x/c" }]

/-- A listing body in the shape the endpoint documents, with three items. -/
def sampleListingBody : List Nat :=
  ascii ("\x7b \"item\": [\x7b\"media_id\":\"m1\",\"name\":\"a.png\",\"update_time\":1," ++
    "\"url\":\"http://x/a\"\x7d, \x7b\"url\":\"http://x/b\",\"name\":\"b.png\"," ++
    "\"media_id\":\"m2\"\x7d, \x7b\"media_id\":\"m3\",\"name\":\"c.png\"," ++
    "\"url\":\"http://x/c\",\"tags\":[1,\x7b\x7d]\x7d],\n \"total_count\": 3, " ++
    "\"item_count\": 3, \"errcode\": 0 \x7d\n")

/-- A listing body with an empty item list and `errcode = 0`. -/
def sampleEmptyListingBody : List Nat :=
  ascii "\x7b\"item\":[],\"total_count\":0,\"item_count\":0,\"errcode\":0\x7d"

/-- A decoded refresh body with the given fields. -/
def sampleBody (token : GoString) (expiresIn errCode : Int) : TokenResponse :=
  { AccessToken := token, ExpiresIn := expiresIn, ErrCode := errCode, ErrMsg := ascii "msg" }

/-- A refresh response with status 200 and the given fields. -/
def sampleResponse (token : GoString) (expiresIn errCode : Int) : HttpResult TokenResponse :=
  HttpResult.response 200 (some (sampleBody token expiresIn errCode))

/-! ## Effects of the single functions -/

theorem readAccessToken_world (w : World) :
    (readAccessToken w).2 = { w with trace := w.trace ++ [Event.readFile tokenFile] } := by
  unfold readAccessToken
  cases w.tokenFile with
  | none => rfl
  | some data =>
    simp only
    cases Unmarshal data <;> rfl

theorem afterCacheTest_frame (w : World) :
    (afterCacheTest w).sent = w.sent ∧ (afterCacheTest w).writes = w.writes ∧
    (afterCacheTest w).tokenFile = w.tokenFile ∧
    (afterCacheTest w).tokenEndpoint = w.tokenEndpoint ∧
    (afterCacheTest w).diskFault = w.diskFault ∧
    (afterCacheTest w).clock = w.clock ∧
    networkCalls (afterCacheTest w).trace = networkCalls w.trace ∧
    fileWrites (afterCacheTest w).trace = fileWrites w.trace := by
  have hw := readAccessToken_world w
  unfold afterCacheTest
  rcases hr : readAccessToken w with ⟨⟨tok, e⟩, w1⟩
  rw [hr] at hw
  simp only at hw
  subst hw
  cases e <;>
    simp [timeNowUnix, networkCalls, fileWrites, List.filter_append, Event.isNetwork, Event.isWrite]

theorem afterCacheTest_ticks (w : World) :
    (afterCacheTest w).ticks = if (readAccessToken w).1.2 = none then w.ticks + 1 else w.ticks := by
  have hw := readAccessToken_world w
  unfold afterCacheTest
  rcases hr : readAccessToken w with ⟨⟨tok, e⟩, w1⟩
  rw [hr] at hw
  simp only at hw
  subst hw
  cases e <;> simp [timeNowUnix]

theorem getAccessToken_miss (config : Config) (w : World)
    (hmiss : ∀ c, (readAccessToken w).1 = (c, none) → c.ExpiresAt ≤ w.clock w.ticks) :
    getAccessToken config w = refreshAccessToken config (afterCacheTest w) := by
  have hw := readAccessToken_world w
  unfold getAccessToken afterCacheTest
  rcases hr : readAccessToken w with ⟨⟨tok, e⟩, w1⟩
  rw [hr] at hw hmiss
  simp only at hw
  subst hw
  cases e with
  | some e => rfl
  | none =>
    have h := hmiss tok rfl
    have h2 : ¬ tok.ExpiresAt > w.clock w.ticks := not_lt.mpr h
    simp [timeNowUnix, h2]

theorem saveAccessToken_frame (token : AccessToken) (w : World) :
    (saveAccessToken token w).2.sent = w.sent ∧
    networkCalls (saveAccessToken token w).2.trace = networkCalls w.trace ∧
    (saveAccessToken token w).2.trace = w.trace ++ [Event.writeFile tokenFile (tokenFileBytes token)] := by
  unfold saveAccessToken Marshal
  simp only
  cases w.diskFault w.writes <;>
    simp [networkCalls, List.filter_append, Event.isNetwork, tokenFileBytes]

theorem fetchNewAccessToken_calls (config : Config) (w : World) :
    (fetchNewAccessToken config w).2.sent = w.sent + 1 ∧
    networkCalls (fetchNewAccessToken config w).2.trace
      = networkCalls w.trace ++ [Event.httpGet (tokenURL config)] := by
  unfold fetchNewAccessToken
  simp only
  cases w.tokenEndpoint w.sent (tokenURL config) with
  | failed => simp [networkCalls, List.filter_append, Event.isNetwork]
  | response status body =>
    cases body with
    | none =>
      simp only
      split_ifs <;> simp [networkCalls, List.filter_append, Event.isNetwork]
    | some r =>
      simp only
      split_ifs <;> simp [timeNowUnix, networkCalls, List.filter_append, Event.isNetwork]

theorem refreshAccessToken_calls (config : Config) (w : World) :
    (refreshAccessToken config w).2.sent = w.sent + 1 ∧
    networkCalls (refreshAccessToken config w).2.trace
      = networkCalls w.trace ++ [Event.httpGet (tokenURL config)] := by
  have hf := fetchNewAccessToken_calls config w
  unfold refreshAccessToken
  rcases hr : fetchNewAccessToken config w with ⟨⟨tok, e⟩, w1⟩
  rw [hr] at hf
  cases e with
  | some e => exact hf
  | none =>
    have hs := saveAccessToken_frame tok w1
    simp only
    rcases hsv : saveAccessToken tok w1 with ⟨e2, w2⟩
    rw [hsv] at hs
    cases e2 <;> simp only <;> exact ⟨hs.1.trans hf.1, hs.2.1.trans hf.2⟩

/-! ## UTF-8 and JSON string literals -/

theorem decodeRune_multibyte (b0 : Nat) (rest t : List Nat) (h80 : ¬ b0 < 0x80)
    (hv : decodesOk (b0 :: rest)) :
    encodeRune (decodeRune (b0 :: rest)).1 = (b0 :: rest).take (decodeRune (b0 :: rest)).2 ∧
    decodeRune ((b0 :: rest).take (decodeRune (b0 :: rest)).2 ++ t) = decodeRune (b0 :: rest) ∧
    ((b0 :: rest).take (decodeRune (b0 :: rest)).2 ++ t).drop (decodeRune (b0 :: rest)).2 = t ∧
    ((b0 :: rest).take (decodeRune (b0 :: rest)).2).length = (decodeRune (b0 :: rest)).2 ∧
    2 ≤ (decodeRune (b0 :: rest)).2 := by
  unfold decodesOk at hv
  by_cases h2 : 0xC2 ≤ b0 ∧ b0 ≤ 0xDF
  · rcases rest with _ | ⟨b1, r⟩
    · simp [decodeRune, h80, h2, RuneError] at hv
    · by_cases hc : isCont b1 = true
      · have hc1 := hc
        simp only [isCont, decide_eq_true_eq] at hc1
        simp only [decodeRune, h80, h2, hc, if_true, if_false, and_self, List.take, List.cons_append, List.drop, List.nil_append, List.length]
        refine ⟨?_, trivial, trivial, trivial, le_refl _⟩
        have hlt : ¬ (b0 % 32 * 64 + b1 % 64 < 128) := by omega
        have hlt2 : (b0 % 32 * 64 + b1 % 64 < 2048) := by omega
        simp only [encodeRune, hlt, hlt2, if_true, if_false]
        congr 1
        · omega
        · congr 1; omega
      · simp [decodeRune, h80, h2, hc, RuneError] at hv
  · by_cases h3 : 0xE0 ≤ b0 ∧ b0 ≤ 0xEF
    · rcases rest with _ | ⟨b1, _ | ⟨b2, r⟩⟩
      · simp [decodeRune, h80, h2, h3, RuneError] at hv
      · simp [decodeRune, h80, h2, h3, RuneError] at hv
      · by_cases hc : (if b0 = 0xE0 then 0xA0 else 0x80) ≤ b1 ∧ b1 ≤ (if b0 = 0xED then 0x9F else 0xBF)
            ∧ isCont b2 = true
        · have hc1 := hc
          simp only [isCont, decide_eq_true_eq] at hc1
          simp only [decodeRune, h80, h2, h3, hc, if_true, if_false, and_self, List.take, List.cons_append, List.drop, List.nil_append, List.length]
          refine ⟨?_, trivial, trivial, trivial, by omega⟩
          have hr : 0x800 ≤ b0 % 16 * 4096 + b1 % 64 * 64 + b2 % 64 ∧
              b0 % 16 * 4096 + b1 % 64 * 64 + b2 % 64 < 0x10000 ∧
              ¬ (0xD800 ≤ b0 % 16 * 4096 + b1 % 64 * 64 + b2 % 64 ∧
                 b0 % 16 * 4096 + b1 % 64 * 64 + b2 % 64 ≤ 0xDFFF) := by
            split_ifs at hc1 <;> omega
          have e1 : ¬ (b0 % 16 * 4096 + b1 % 64 * 64 + b2 % 64 < 128) := by omega
          have e2 : ¬ (b0 % 16 * 4096 + b1 % 64 * 64 + b2 % 64 < 2048) := by omega
          have e3 : ¬ (1114111 < b0 % 16 * 4096 + b1 % 64 * 64 + b2 % 64 ∨
              (55296 ≤ b0 % 16 * 4096 + b1 % 64 * 64 + b2 % 64 ∧
               b0 % 16 * 4096 + b1 % 64 * 64 + b2 % 64 ≤ 57343)) := by omega
          have e4 : b0 % 16 * 4096 + b1 % 64 * 64 + b2 % 64 < 65536 := by omega
          simp only [encodeRune, e1, e2, e3, e4, if_true, if_false]
          have q1 : 224 + (b0 % 16 * 4096 + b1 % 64 * 64 + b2 % 64) / 4096 = b0 := by
            split_ifs at hc1 <;> omega
          have q2 : 128 + (b0 % 16 * 4096 + b1 % 64 * 64 + b2 % 64) / 64 % 64 = b1 := by
            split_ifs at hc1 <;> omega
          have q3 : 128 + (b0 % 16 * 4096 + b1 % 64 * 64 + b2 % 64) % 64 = b2 := by
            split_ifs at hc1 <;> omega
          rw [q1, q2, q3]
        · simp [decodeRune, h80, h2, h3, hc, RuneError] at hv
    · by_cases h4 : 0xF0 ≤ b0 ∧ b0 ≤ 0xF4
      · rcases rest with _ | ⟨b1, _ | ⟨b2, _ | ⟨b3, r⟩⟩⟩
        · simp [decodeRune, h80, h2, h3, h4, RuneError] at hv
        · simp [decodeRune, h80, h2, h3, h4, RuneError] at hv
        · simp [decodeRune, h80, h2, h3, h4, RuneError] at hv
        · by_cases hc : (if b0 = 0xF0 then 0x90 else 0x80) ≤ b1 ∧ b1 ≤ (if b0 = 0xF4 then 0x8F else 0xBF)
              ∧ isCont b2 = true ∧ isCont b3 = true
          · have hc1 := hc
            simp only [isCont, decide_eq_true_eq] at hc1
            simp only [decodeRune, h80, h2, h3, h4, hc, if_true, if_false, and_self, List.take, List.cons_append, List.drop, List.nil_append, List.length]
            refine ⟨?_, trivial, trivial, trivial, by omega⟩
            have hr : 0x10000 ≤ b0 % 8 * 262144 + b1 % 64 * 4096 + b2 % 64 * 64 + b3 % 64 ∧
                b0 % 8 * 262144 + b1 % 64 * 4096 + b2 % 64 * 64 + b3 % 64 ≤ 0x10FFFF := by
              split_ifs at hc1 <;> omega
            have e1 : ¬ (b0 % 8 * 262144 + b1 % 64 * 4096 + b2 % 64 * 64 + b3 % 64 < 128) := by omega
            have e2 : ¬ (b0 % 8 * 262144 + b1 % 64 * 4096 + b2 % 64 * 64 + b3 % 64 < 2048) := by omega
            have e3 : ¬ (1114111 < b0 % 8 * 262144 + b1 % 64 * 4096 + b2 % 64 * 64 + b3 % 64 ∨
                (55296 ≤ b0 % 8 * 262144 + b1 % 64 * 4096 + b2 % 64 * 64 + b3 % 64 ∧
                 b0 % 8 * 262144 + b1 % 64 * 4096 + b2 % 64 * 64 + b3 % 64 ≤ 57343)) := by omega
            have e4 : ¬ (b0 % 8 * 262144 + b1 % 64 * 4096 + b2 % 64 * 64 + b3 % 64 < 65536) := by omega
            simp only [encodeRune, e1, e2, e3, e4, if_true, if_false]
            have q1 : 240 + (b0 % 8 * 262144 + b1 % 64 * 4096 + b2 % 64 * 64 + b3 % 64) / 262144 = b0 := by
              split_ifs at hc1 <;> omega
            have q2 : 128 + (b0 % 8 * 262144 + b1 % 64 * 4096 + b2 % 64 * 64 + b3 % 64) / 4096 % 64 = b1 := by
              split_ifs at hc1 <;> omega
            have q3 : 128 + (b0 % 8 * 262144 + b1 % 64 * 4096 + b2 % 64 * 64 + b3 % 64) / 64 % 64 = b2 := by
              split_ifs at hc1 <;> omega
            have q4 : 128 + (b0 % 8 * 262144 + b1 % 64 * 4096 + b2 % 64 * 64 + b3 % 64) % 64 = b3 := by
              split_ifs at hc1 <;> omega
            rw [q1, q2, q3, q4]
          · simp [decodeRune, h80, h2, h3, h4, hc, RuneError] at hv
      · simp [decodeRune, h80, h2, h3, h4, RuneError] at hv

theorem unquote_quote (F : Nat) (rest : List Nat) :
    unquote (F + 1) (34 :: rest) = some ([], rest) := by
  simp [unquote]

theorem unquote_plain (F c : Nat) (rest : List Nat) (h1 : 32 ≤ c) (h2 : c < 0x80)
    (h3 : c ≠ 34) (h4 : c ≠ 92) :
    unquote (F + 1) (c :: rest) = consBytes [c] (unquote F rest) := by
  have h5 : ¬ c < 32 := by omega
  simp [unquote, h2, h3, h4, h5]

theorem unquote_high (F c : Nat) (rest : List Nat) (h : ¬ c < 0x80) :
    unquote (F + 1) (c :: rest)
      = consBytes (encodeRune (decodeRune (c :: rest)).1)
          (unquote F ((c :: rest).drop (decodeRune (c :: rest)).2)) := by
  have h3 : c ≠ 34 := by omega
  have h4 : c ≠ 92 := by omega
  have h5 : ¬ c < 32 := by omega
  simp only [unquote, h, h3, h4, h5, if_false]

theorem unquote_simple (F e ch : Nat) (rest : List Nat) (he : simpleEscape e = some ch)
    (hu : e ≠ 117) :
    unquote (F + 1) (92 :: e :: rest) = consBytes [ch] (unquote F rest) := by
  simp [unquote, he, hu]

theorem unquote_u4 (F a b c d rr : Nat) (rest : List Nat)
    (hg : getu4 (92 :: 117 :: a :: b :: c :: d :: rest) = some rr)
    (hs : isSurrogate rr = false) :
    unquote (F + 1) (92 :: 117 :: a :: b :: c :: d :: rest)
      = consBytes (encodeRune rr) (unquote F rest) := by
  simp [unquote, hg, hs]

theorem hexVal_hexDigit (k : Nat) (h : k < 16) : hexVal (hexDigit k) = some k := by
  unfold hexDigit hexVal
  by_cases h10 : k < 10
  · have h1 : 48 ≤ 48 + k ∧ 48 + k ≤ 57 := by omega
    simp [h10, h1]
  · have h1 : ¬ (48 ≤ 87 + k ∧ 87 + k ≤ 57) := by omega
    have h2 : 97 ≤ 87 + k ∧ 87 + k ≤ 102 := by omega
    simp only [h10, h1, h2, if_true, if_false, and_self]
    congr 1
    omega

theorem unquote_escapeASCII (F b : Nat) (tail : List Nat) (h : b < 0x80) :
    unquote (F + 1) (escapeASCII b ++ tail) = consBytes [b] (unquote F tail) := by
  unfold escapeASCII
  split_ifs with c1 c2 c3 c4 c5 c6 c7
  · rcases c1 with rfl | rfl <;> exact unquote_simple F _ _ tail (by decide) (by decide)
  · subst c2; exact unquote_simple F _ _ tail (by decide) (by decide)
  · subst c3; exact unquote_simple F _ _ tail (by decide) (by decide)
  · subst c4; exact unquote_simple F _ _ tail (by decide) (by decide)
  · subst c5; exact unquote_simple F _ _ tail (by decide) (by decide)
  · subst c6; exact unquote_simple F _ _ tail (by decide) (by decide)
  · have hg : getu4 (92 :: 117 :: 48 :: 48 :: hexDigit (b / 16) :: hexDigit (b % 16) :: tail) = some b := by
      have e1 := hexVal_hexDigit (b / 16) (by omega)
      have e2 := hexVal_hexDigit (b % 16) (by omega)
      have e0 : hexVal 48 = some 0 := by decide
      simp only [getu4, e0, e1, e2]
      congr 1
      omega
    have hs : isSurrogate b = false := by
      simp only [isSurrogate, decide_eq_false_iff_not]; omega
    have he : encodeRune b = [b] := by simp [encodeRune, h]
    have := unquote_u4 F 48 48 (hexDigit (b / 16)) (hexDigit (b % 16)) b tail hg hs
    rw [he] at this
    exact this
  · exact unquote_plain F b tail (by omega) h (by omega) (by omega)

theorem unquote_appendStringBody (fuel : Nat) :
    ∀ (s rest : List Nat) (F : Nat), (appendStringBody fuel s).length + 1 ≤ F →
      unquote F (appendStringBody fuel s ++ 34 :: rest) = some (toValidUTF8Aux fuel s, rest) := by
  induction fuel with
  | zero =>
    intro s rest F hF
    obtain ⟨F1, rfl⟩ : ∃ F1, F = F1 + 1 := ⟨F - 1, by omega⟩
    simp [appendStringBody, toValidUTF8Aux, unquote_quote]
  | succ fuel ih =>
    intro s rest F hF
    obtain ⟨F1, rfl⟩ : ∃ F1, F = F1 + 1 := ⟨F - 1, by omega⟩
    rcases s with _ | ⟨b, r⟩
    · simp [appendStringBody, toValidUTF8Aux, unquote_quote]
    · by_cases h80 : b < 0x80
      · have hb : b ≠ RuneError := by unfold RuneError; omega
        have hlen : 1 ≤ (escapeASCII b).length := by
          unfold escapeASCII; split_ifs <;> simp
        simp only [appendStringBody, h80, if_true, List.length_append] at hF ⊢
        rw [List.append_assoc, unquote_escapeASCII F1 b _ h80, ih r rest F1 (by omega)]
        simp [toValidUTF8Aux, decodeRune, h80, hb, consBytes]
      · by_cases hinv : (decodeRune (b :: r)).1 = RuneError ∧ (decodeRune (b :: r)).2 = 1
        · simp only [appendStringBody, h80, hinv, and_self, if_true, if_false, List.length_append] at hF ⊢
          have hg : getu4 (92 :: 117 :: 102 :: 102 :: 102 :: 100 :: (appendStringBody fuel r ++ 34 :: rest))
              = some 0xFFFD := rfl
          rw [List.append_assoc]
          show unquote (F1 + 1) (92 :: 117 :: 102 :: 102 :: 102 :: 100 :: (appendStringBody fuel r ++ 34 :: rest)) = _
          rw [unquote_u4 F1 _ _ _ _ _ _ hg (by decide), ih r rest F1 (by simp at hF; omega)]
          simp [toValidUTF8Aux, hinv, consBytes, encodeRune]
        · have hU := decodeRune_multibyte b r (appendStringBody fuel ((b :: r).drop (decodeRune (b :: r)).2) ++ 34 :: rest) h80 hinv
          obtain ⟨hU1, hU2, hU3, hU4, hU5⟩ := hU
          by_cases hls : (decodeRune (b :: r)).1 = 0x2028 ∨ (decodeRune (b :: r)).1 = 0x2029
          · simp only [appendStringBody, h80, hinv, hls, if_true, if_false, List.length_append] at hF ⊢
            have hg : getu4 (92 :: 117 :: 50 :: 48 :: 50 :: hexDigit ((decodeRune (b :: r)).1 % 16) ::
                (appendStringBody fuel ((b :: r).drop (decodeRune (b :: r)).2) ++ 34 :: rest))
                = some (decodeRune (b :: r)).1 := by
              rcases hls with h | h <;> rw [h] <;> rfl
            have hs : isSurrogate (decodeRune (b :: r)).1 = false := by
              rcases hls with h | h <;> rw [h] <;> decide
            rw [List.append_assoc]
            show unquote (F1 + 1) (92 :: 117 :: 50 :: 48 :: 50 :: hexDigit ((decodeRune (b :: r)).1 % 16) ::
                (appendStringBody fuel ((b :: r).drop (decodeRune (b :: r)).2) ++ 34 :: rest)) = _
            rw [unquote_u4 F1 _ _ _ _ _ _ hg hs, ih _ rest F1 (by simp at hF; omega), hU1]
            simp [toValidUTF8Aux, hinv, consBytes]
          · simp only [appendStringBody, h80, hinv, hls, if_true, if_false, List.length_append] at hF ⊢
            rw [List.append_assoc]
            have h2 : (b :: r).take (decodeRune (b :: r)).2
                = b :: r.take ((decodeRune (b :: r)).2 - 1) := by
              obtain ⟨k, hk⟩ : ∃ k, (decodeRune (b :: r)).2 = k + 1 := ⟨(decodeRune (b :: r)).2 - 1, by omega⟩
              rw [hk]; simp
            have key := unquote_high F1 b (r.take ((decodeRune (b :: r)).2 - 1) ++
              (appendStringBody fuel ((b :: r).drop (decodeRune (b :: r)).2) ++ 34 :: rest)) h80
            rw [← List.cons_append, ← h2, hU2, hU3] at key
            rw [key, ih _ rest F1 (by omega), hU1]
            simp [toValidUTF8Aux, hinv, consBytes]

/-! ## Decimal integers -/

theorem parseDigits_natDigits (f : Nat) : ∀ (n : Nat) (acc : List Nat), n < 10 ^ (f + 1) →
    parseDigits 0 (natDigits f n acc) = parseDigits n acc := by
  induction f with
  | zero =>
    intro n acc hn
    have h10 : n < 10 := by simpa using hn
    have h1 : 48 ≤ 48 + n % 10 ∧ 48 + n % 10 ≤ 57 := by omega
    have h2 : 0 * 10 + (48 + n % 10 - 48) = n := by omega
    simp only [natDigits, parseDigits, h1, and_self, if_true, h2]
  | succ f ih =>
    intro n acc hn
    by_cases h10 : n < 10
    · have h1 : 48 ≤ 48 + n ∧ 48 + n ≤ 57 := by omega
      have h2 : 0 * 10 + (48 + n - 48) = n := by omega
      simp only [natDigits, h10, if_true, parseDigits, h1, and_self, h2]
    · have hdiv : n / 10 < 10 ^ (f + 1) := by
        rw [Nat.div_lt_iff_lt_mul (by norm_num)]
        calc n < 10 ^ (f + 1 + 1) := hn
          _ = 10 ^ (f + 1) * 10 := by rw [pow_succ]
      have h1 : 48 ≤ 48 + n % 10 ∧ 48 + n % 10 ≤ 57 := by omega
      have h2 : n / 10 * 10 + (48 + n % 10 - 48) = n := by omega
      simp only [natDigits, h10, if_false]
      rw [ih (n / 10) _ hdiv]
      simp only [parseDigits, h1, and_self, if_true, h2]

theorem natDigits_shape (f : Nat) : ∀ (n : Nat) (acc : List Nat), n < 10 ^ (f + 1) →
    ∃ d ds, natDigits f n acc = d :: (ds ++ acc) ∧ (∀ x ∈ ds, isDigit x = true) ∧
      isDigit d = true ∧ (d = 48 → n = 0 ∧ ds = []) := by
  induction f with
  | zero =>
    intro n acc hn
    have h10 : n < 10 := by simpa using hn
    refine ⟨48 + n % 10, [], by simp [natDigits], by simp, ?_, fun h => ⟨by omega, rfl⟩⟩
    simp only [isDigit, decide_eq_true_eq]; omega
  | succ f ih =>
    intro n acc hn
    by_cases h10 : n < 10
    · refine ⟨48 + n, [], by simp [natDigits, h10], by simp, ?_, fun h => ⟨by omega, rfl⟩⟩
      simp only [isDigit, decide_eq_true_eq]; omega
    · have hdiv : n / 10 < 10 ^ (f + 1) := by
        rw [Nat.div_lt_iff_lt_mul (by norm_num)]
        calc n < 10 ^ (f + 1 + 1) := hn
          _ = 10 ^ (f + 1) * 10 := by rw [pow_succ]
      obtain ⟨d, ds, h1, h2, h3, h4⟩ := ih (n / 10) ((48 + n % 10) :: acc) hdiv
      refine ⟨d, ds ++ [48 + n % 10], ?_, ?_, h3, ?_⟩
      · simp only [natDigits, h10, if_false, h1, List.append_assoc, List.singleton_append]
      · intro x hx
        rcases List.mem_append.mp hx with hx | hx
        · exact h2 x hx
        · rw [List.mem_singleton.mp hx]
          simp only [isDigit, decide_eq_true_eq]; omega
      · intro hd
        have := (h4 hd).1
        omega

theorem lt_pow_succ_self (n : Nat) : n < 10 ^ (n + 1) :=
  lt_trans (Nat.lt_pow_self (by norm_num) n) (Nat.pow_lt_pow_right (by norm_num) (Nat.lt_succ_self n))

theorem spanDigits_append (ds : List Nat) (c : Nat) (rest : List Nat)
    (hds : ∀ x ∈ ds, isDigit x = true) (hc : isDigit c = false) :
    spanDigits (ds ++ c :: rest) = (ds, c :: rest) := by
  induction ds with
  | nil => simp [spanDigits, hc]
  | cons d ds ih =>
    have hd : isDigit d = true := hds d (List.mem_cons_self _ _)
    have ih1 := ih (fun x hx => hds x (List.mem_cons_of_mem _ hx))
    simp [spanDigits, hd, ih1]

/-- The number scanner on digits `d :: ds` followed by a closing brace. -/
theorem scanNumber_digits (d : Nat) (ds rest : List Nat) (hd : isDigit d = true)
    (hds : ∀ x ∈ ds, isDigit x = true) (h0 : d = 48 → ds = []) :
    scanNumber (d :: (ds ++ 125 :: rest)) = some (d :: ds, 125 :: rest) ∧
    scanNumber (45 :: d :: (ds ++ 125 :: rest)) = some (45 :: d :: ds, 125 :: rest) := by
  have hsp := spanDigits_append ds 125 rest hds (by decide)
  have hd1 := hd
  simp only [isDigit, decide_eq_true_eq] at hd1
  have hne : d ≠ 45 := by omega
  by_cases hz : d = 48
  · have hnil := h0 hz
    subst hnil
    subst hz
    constructor <;> simp [scanNumber, isDigit]
  · constructor
    · simp [scanNumber, hd, hz, hsp, hne]
    · simp [scanNumber, hd, hz, hsp]

theorem formatInt_shape (x : Int) :
    ∃ d ds, (∀ y ∈ ds, isDigit y = true) ∧ isDigit d = true ∧ (d = 48 → ds = []) ∧
      natDigits x.natAbs x.natAbs [] = d :: ds := by
  obtain ⟨d, ds, h1, h2, h3, h4⟩ := natDigits_shape x.natAbs x.natAbs [] (lt_pow_succ_self _)
  exact ⟨d, ds, h2, h3, fun h => (h4 h).2, by simpa using h1⟩

theorem scanNumber_formatInt (x : Int) (rest : List Nat) :
    scanNumber (formatInt x ++ 125 :: rest) = some (formatInt x, 125 :: rest) := by
  obtain ⟨d, ds, h2, h3, h4, h1⟩ := formatInt_shape x
  have hs := scanNumber_digits d ds rest h3 h2 h4
  unfold formatInt
  by_cases hx : x < 0
  · simp only [hx, if_true, h1, List.cons_append]
    exact hs.2
  · simp only [hx, if_false, h1, List.cons_append]
    exact hs.1

theorem parseInt_formatInt (x : Int) (hx : inInt64 x) : parseInt (formatInt x) = some x := by
  obtain ⟨d, ds, h2, h3, h4, h1⟩ := formatInt_shape x
  have hp := parseDigits_natDigits x.natAbs x.natAbs [] (lt_pow_succ_self _)
  rw [h1] at hp
  have hp2 : parseDigits x.natAbs [] = some x.natAbs := rfl
  rw [hp2] at hp
  have hd1 := h3
  simp only [isDigit, decide_eq_true_eq] at hd1
  unfold formatInt
  by_cases hneg : x < 0
  · have hv : -((x.natAbs : Nat) : Int) = x := by omega
    simp only [hneg, if_true, h1, parseInt]
    rw [hp]
    show (if inInt64 (-((x.natAbs : Nat) : Int)) then some (-((x.natAbs : Nat) : Int)) else none)
      = some x
    rw [hv]
    exact if_pos hx
  · have hv : ((x.natAbs : Nat) : Int) = x := by omega
    have h45 : d ≠ 45 := by omega
    have h43 : d ≠ 43 := by omega
    simp only [hneg, if_false, h1]
    unfold parseInt
    split
    · rename_i heq; simp at heq; exact absurd heq.1 h45
    · rename_i heq; simp at heq; exact absurd heq.1 h43
    · simp only
      rw [hp]
      simp [hv, hx]

/-! ## The token file read back -/

theorem skipWs_cons (c : Nat) (rest : List Nat) (h : isSpace c = false) :
    skipWs (c :: rest) = c :: rest := by
  simp [skipWs, h]

theorem unquote_literal (s rest : List Nat) :
    unquote (appendStringBody s.length s ++ 34 :: rest).length
        (appendStringBody s.length s ++ 34 :: rest)
      = some (toValidUTF8 s, rest) := by
  unfold toValidUTF8
  apply unquote_appendStringBody
  simp

theorem parseValue_string (F d : Nat) (s rest : List Nat) :
    parseValue (F + 1) d (34 :: (appendStringBody s.length s ++ 34 :: rest))
      = some (JValue.str (toValidUTF8 s), rest) := by
  rw [parseValue]
  simp only [show (34 : Nat) ≠ 123 by decide, show (34 : Nat) ≠ 91 by decide, if_false, if_true]
  rw [unquote_literal]

theorem formatInt_head (x : Int) :
    ∃ c t, formatInt x = c :: t ∧ (c = 45 ∨ isDigit c = true) := by
  obtain ⟨d, ds, _, h3, _, h1⟩ := formatInt_shape x
  unfold formatInt
  by_cases hx : x < 0
  · exact ⟨45, d :: ds, by simp [hx, h1], Or.inl rfl⟩
  · exact ⟨d, ds, by simp [hx, h1], Or.inr h3⟩

theorem parseValue_number (F d : Nat) (x : Int) (rest : List Nat) :
    parseValue (F + 1) d (formatInt x ++ 125 :: rest)
      = some (JValue.num (formatInt x), 125 :: rest) := by
  have hs := scanNumber_formatInt x rest
  obtain ⟨c, t, hc, hd⟩ := formatInt_head x
  rw [hc] at hs ⊢
  have h1 : c ≠ 123 := by
    rcases hd with h | h
    · omega
    · simp only [isDigit, decide_eq_true_eq] at h; omega
  have h2 : c ≠ 91 := by
    rcases hd with h | h
    · omega
    · simp only [isDigit, decide_eq_true_eq] at h; omega
  have h3 : c ≠ 34 := by
    rcases hd with h | h
    · omega
    · simp only [isDigit, decide_eq_true_eq] at h; omega
  rw [List.cons_append, parseValue]
  simp only [h1, h2, h3, if_false, hd, if_true]
  rw [← List.cons_append, hs]

theorem parseMembers_last_number (F d : Nat) (k : GoString) (x : Int) (rest : List Nat) :
    parseMembers (F + 2) d
        (34 :: (appendStringBody k.length k ++ 34 :: 58 :: (formatInt x ++ 125 :: rest)))
      = some ([(toValidUTF8 k, JValue.num (formatInt x))], rest) := by
  obtain ⟨c, t, hc, hd⟩ := formatInt_head x
  have hsp : isSpace c = false := by
    rcases hd with h | h
    · subst h; decide
    · simp only [isDigit, decide_eq_true_eq] at h
      simp only [isSpace, decide_eq_false_iff_not]; omega
  have hn := parseValue_number F d x rest
  rw [parseMembers]
  simp only [if_true, List.length_cons]
  rw [unquote_literal]
  simp only
  rw [skipWs_cons 58 _ (by decide)]
  simp only [if_true]
  have hsk : skipWs (formatInt x ++ 125 :: rest) = formatInt x ++ 125 :: rest := by
    rw [hc, List.cons_append]; exact skipWs_cons c _ hsp
  rw [hsk, hn]
  simp only
  rw [skipWs_cons 125 _ (by decide)]
  simp

theorem parseMembers_string_more (F d : Nat) (k v : GoString) (c : Nat) (more : List Nat)
    (hc : isSpace c = false) :
    parseMembers (F + 2) d
        (34 :: (appendStringBody k.length k ++ 34 :: 58 :: 34 ::
          (appendStringBody v.length v ++ 34 :: 44 :: c :: more)))
      = match parseMembers (F + 1) d (c :: more) with
        | none => none
        | some (ms, r) => some ((toValidUTF8 k, JValue.str (toValidUTF8 v)) :: ms, r) := by
  have hv := parseValue_string F d v (44 :: c :: more)
  rw [parseMembers]
  simp only [if_true, List.length_cons]
  rw [unquote_literal]
  simp only
  rw [skipWs_cons 58 _ (by decide)]
  simp only [if_true]
  rw [skipWs_cons 34 _ (by decide), hv]
  simp only
  rw [skipWs_cons 44 _ (by decide)]
  simp only [if_true]
  rw [skipWs_cons c _ hc]

theorem toValidUTF8_keys :
    toValidUTF8 keyAccessToken = keyAccessToken ∧ toValidUTF8 keyExpiresAt = keyExpiresAt := by
  decide

theorem parseDocument_tokenFileBytes (c : AccessToken) :
    parseDocument (tokenFileBytes c)
      = some (JValue.obj [(keyAccessToken, JValue.str (toValidUTF8 c.Token)),
          (keyExpiresAt, JValue.num (formatInt c.ExpiresAt))]) := by
  have hshape : tokenFileBytes c = 123 :: 34 :: (appendStringBody keyAccessToken.length keyAccessToken
      ++ 34 :: 58 :: 34 :: (appendStringBody c.Token.length c.Token ++ 34 :: 44 :: 34 ::
        (appendStringBody keyExpiresAt.length keyExpiresAt ++ 34 :: 58 ::
          (formatInt c.ExpiresAt ++ 125 :: [])))) := by
    simp [tokenFileBytes, appendString]
  have hlen : ∃ F, 2 * (tokenFileBytes c).length + 2 = F + 4 :=
    ⟨2 * (tokenFileBytes c).length - 2, by rw [hshape]; simp only [List.length_cons]; omega⟩
  obtain ⟨F, hF⟩ := hlen
  unfold parseDocument
  rw [hF, hshape, skipWs_cons 123 _ (by decide), parseValue]
  simp only [if_true]
  have hd : ¬ maxNestingDepth < 0 + 1 := by decide
  simp only [hd, if_false]
  rw [skipWs_cons 34 _ (by decide)]
  have hm := parseMembers_string_more (F + 1) (0 + 1) keyAccessToken c.Token 34
    (appendStringBody keyExpiresAt.length keyExpiresAt ++ 34 :: 58 ::
          (formatInt c.ExpiresAt ++ 125 :: [])) (by decide)
  rw [parseMembers_last_number F (0 + 1) keyExpiresAt c.ExpiresAt []] at hm
  simp only at hm
  rw [toValidUTF8_keys.1, toValidUTF8_keys.2] at hm
  simp only [hm]
  simp [skipWs]

theorem storeFields_tokenFile (tok : GoString) (x : Int) (hx : inInt64 x) :
    storeFields [(keyAccessToken, JValue.str tok), (keyExpiresAt, JValue.num (formatInt x))]
        { Token := [], ExpiresAt := 0 }
      = Except.ok { Token := tok, ExpiresAt := x } := by
  have h1 : keyMatches keyAccessToken keyAccessToken = true := by decide
  have h2 : keyMatches keyAccessToken keyExpiresAt = false := by decide
  have h3 : keyMatches keyExpiresAt keyExpiresAt = true := by decide
  simp [storeFields, storeToken, storeExpiresAt, h1, h2, h3, parseInt_formatInt x hx]

/-- Reading back what `Marshal` wrote: the expiry is kept, the token comes back coerced
to valid UTF-8. -/
theorem Unmarshal_tokenFileBytes (c : AccessToken) (hx : inInt64 c.ExpiresAt) :
    Unmarshal (tokenFileBytes c)
      = Except.ok { Token := toValidUTF8 c.Token, ExpiresAt := c.ExpiresAt } := by
  unfold Unmarshal
  rw [parseDocument_tokenFileBytes]
  simp only
  exact storeFields_tokenFile _ _ hx

theorem toValidUTF8Aux_of_valid (fuel : Nat) :
    ∀ s : GoString, validUTF8Aux fuel s = true → toValidUTF8Aux fuel s = s := by
  induction fuel with
  | zero =>
    intro s h
    cases s with
    | nil => rfl
    | cons b r => simp [validUTF8Aux] at h
  | succ fuel ih =>
    intro s h
    cases s with
    | nil => rfl
    | cons b r =>
      by_cases hinv : (decodeRune (b :: r)).1 = RuneError ∧ (decodeRune (b :: r)).2 = 1
      · simp [validUTF8Aux, hinv] at h
      · simp only [validUTF8Aux, hinv, if_false] at h
        simp only [toValidUTF8Aux, hinv, if_false]
        rw [ih _ h, List.take_append_drop]

theorem toValidUTF8_of_valid (s : GoString) (h : validUTF8 s = true) : toValidUTF8 s = s :=
  toValidUTF8Aux_of_valid s.length s h

/-! ## Refresh: shared facts -/

theorem wrap64_add_wrap64 (a b : Int) : wrap64 (a + wrap64 b) = wrap64 (a + b) := by
  unfold wrap64
  omega

theorem wrap64_of_inInt64 (x : Int) (h : inInt64 x) : wrap64 x = x := by
  unfold inInt64 at h
  unfold wrap64
  omega

theorem wrap64_inInt64 (x : Int) : inInt64 (wrap64 x) := by
  unfold inInt64 wrap64
  omega

theorem fetchNewAccessToken_success (config : Config) (w : World) (r : TokenResponse)
    (hresp : w.tokenEndpoint w.sent (tokenURL config) = HttpResult.response 200 (some r))
    (htok : r.AccessToken ≠ []) (hE : r.ExpiresIn ≠ 0) :
    fetchNewAccessToken config w
      = (({ Token := r.AccessToken, ExpiresAt := wrap64 (w.clock w.ticks + r.ExpiresIn - 5) }, none),
         { w with sent := w.sent + 1, ticks := w.ticks + 1,
                  trace := w.trace ++ [Event.httpGet (tokenURL config), Event.now] }) := by
  have h1 : r.AccessToken ≠ [] ∧ r.ExpiresIn ≠ 0 := ⟨htok, hE⟩
  have h2 : w.clock w.ticks + (r.ExpiresIn - 5) = w.clock w.ticks + r.ExpiresIn - 5 := by omega
  unfold fetchNewAccessToken
  simp only [hresp]
  rw [if_neg (show ¬ ((200 : Nat) ≠ 200) by decide), if_pos h1]
  simp [timeNowUnix, wrap64_add_wrap64, h2]

theorem refreshAccessToken_of_fetch (config : Config) (w w1 : World) (newToken : AccessToken)
    (h : fetchNewAccessToken config w = ((newToken, none), w1)) :
    refreshAccessToken config w
      = match saveAccessToken newToken w1 with
        | (some e, w2) => (([], some (Err.saveTokenFailed e)), w2)
        | (none, w2) => ((newToken.Token, none), w2) := by
  unfold refreshAccessToken
  rw [h]

theorem refreshAccessToken_result (config : Config) (w : World) :
    (∀ e, (fetchNewAccessToken config w).1.2 = some e →
      (refreshAccessToken config w).1 = ([], some e)) ∧
    ((refreshAccessToken config w).1.2 = none →
      (refreshAccessToken config w).1.1 = (fetchNewAccessToken config w).1.1.Token) := by
  unfold refreshAccessToken
  rcases hr : fetchNewAccessToken config w with ⟨⟨tok, e⟩, w1⟩
  cases e with
  | some e => simp
  | none =>
    simp only
    rcases hsv : saveAccessToken tok w1 with ⟨e2, w2⟩
    cases e2 <;> simp

theorem saveAccessToken_ok (token : AccessToken) (w : World) (h : w.diskFault w.writes = none) :
    saveAccessToken token w
      = (none, { w with writes := w.writes + 1,
                        trace := w.trace ++ [Event.writeFile tokenFile (tokenFileBytes token)],
                        tokenFile := some (tokenFileBytes token) }) := by
  unfold saveAccessToken Marshal
  simp only [h, tokenFileBytes]

theorem saveAccessToken_ok_iff (token : AccessToken) (w : World) :
    (saveAccessToken token w).1 = none ↔ w.diskFault w.writes = none := by
  unfold saveAccessToken Marshal
  simp only
  cases w.diskFault w.writes <;> simp

theorem readAccessToken_tokenFileBytes (w : World) (c : AccessToken) (hx : inInt64 c.ExpiresAt)
    (hfile : w.tokenFile = some (tokenFileBytes c)) :
    (readAccessToken w).1 = ({ Token := toValidUTF8 c.Token, ExpiresAt := c.ExpiresAt }, none) := by
  unfold readAccessToken
  simp only [hfile, Unmarshal_tokenFileBytes c hx]

theorem getAccessToken_refreshes_once_aux (config : Config) (w : World)
    (hmiss : ∀ c, (readAccessToken w).1 = (c, none) → c.ExpiresAt ≤ w.clock w.ticks) :
    getAccessToken config w = refreshAccessToken config (afterCacheTest w) ∧
    (getAccessToken config w).2.sent = w.sent + 1 ∧
    networkCalls (getAccessToken config w).2.trace
      = networkCalls w.trace ++ [Event.httpGet (tokenURL config)] := by
  have hm := getAccessToken_miss config w hmiss
  have hf := afterCacheTest_frame w
  have hc := refreshAccessToken_calls config (afterCacheTest w)
  rw [hm]
  refine ⟨rfl, ?_, ?_⟩
  · rw [hc.1, hf.1]
  · rw [hc.2, hf.2.2.2.2.2.2.1]

theorem refresh_margin_aux (config : Config) (w : World) (r : TokenResponse)
    (hresp : w.tokenEndpoint w.sent (tokenURL config) = HttpResult.response 200 (some r))
    (htok : r.AccessToken ≠ []) (hE : r.ExpiresIn ≠ 0) :
    (fetchNewAccessToken config w).1
      = ({ Token := r.AccessToken, ExpiresAt := wrap64 (w.clock w.ticks + r.ExpiresIn - 5) }, none) ∧
    (inInt64 (w.clock w.ticks + r.ExpiresIn - 5) →
      (fetchNewAccessToken config w).1
        = ({ Token := r.AccessToken, ExpiresAt := w.clock w.ticks + r.ExpiresIn - 5 }, none)) ∧
    (∀ w0 : World, afterCacheTest w0 = w →
      (∀ c, (readAccessToken w0).1 = (c, none) → c.ExpiresAt ≤ w0.clock w0.ticks) →
      fileWrites (getAccessToken config w0).2.trace
        = fileWrites w0.trace ++ [Event.writeFile tokenFile (tokenFileBytes
            { Token := r.AccessToken, ExpiresAt := wrap64 (w.clock w.ticks + r.ExpiresIn - 5) })] ∧
      (w.diskFault w.writes = none →
        (getAccessToken config w0).2.tokenFile = some (tokenFileBytes
            { Token := r.AccessToken, ExpiresAt := wrap64 (w.clock w.ticks + r.ExpiresIn - 5) }) ∧
        (getAccessToken config w0).1 = (r.AccessToken, none))) := by
  have hf := fetchNewAccessToken_success config w r hresp htok hE
  refine ⟨by rw [hf], ?_, ?_⟩
  · intro hin
    rw [hf, wrap64_of_inInt64 _ hin]
  · intro w0 hw0 hmiss
    have hm := getAccessToken_miss config w0 hmiss
    have hfr := afterCacheTest_frame w0
    rw [hw0] at hm hfr
    have hrf := refreshAccessToken_of_fetch config w _ _ hf
    have hsf := saveAccessToken_frame
      { Token := r.AccessToken, ExpiresAt := wrap64 (w.clock w.ticks + r.ExpiresIn - 5) }
      { w with sent := w.sent + 1, ticks := w.ticks + 1,
               trace := w.trace ++ [Event.httpGet (tokenURL config), Event.now] }
    constructor
    · rw [hm, hrf]
      rcases hsv : saveAccessToken
        { Token := r.AccessToken, ExpiresAt := wrap64 (w.clock w.ticks + r.ExpiresIn - 5) }
        { w with sent := w.sent + 1, ticks := w.ticks + 1,
                 trace := w.trace ++ [Event.httpGet (tokenURL config), Event.now] } with ⟨e2, w2⟩
      rw [hsv] at hsf
      have ht : w2.trace = (w.trace ++ [Event.httpGet (tokenURL config), Event.now]) ++
          [Event.writeFile tokenFile (tokenFileBytes
            { Token := r.AccessToken, ExpiresAt := wrap64 (w.clock w.ticks + r.ExpiresIn - 5) })] :=
        hsf.2.2
      have hw : fileWrites w.trace = fileWrites w0.trace := hfr.2.2.2.2.2.2.2
      cases e2 <;>
        simp [ht, fileWrites, List.filter_append, Event.isWrite] <;>
        exact hw
    · intro hd
      have hok := saveAccessToken_ok
        { Token := r.AccessToken, ExpiresAt := wrap64 (w.clock w.ticks + r.ExpiresIn - 5) }
        { w with sent := w.sent + 1, ticks := w.ticks + 1,
                 trace := w.trace ++ [Event.httpGet (tokenURL config), Event.now] } hd
      rw [hm, hrf, hok]
      exact ⟨rfl, rfl⟩

/-! ## The listing response decoded -/

theorem keyMatches_self (name : GoString) : keyMatches name name = true := by
  simp [keyMatches]

theorem keyMatches_disjoint (a b k : GoString)
    (hab : foldName a.length a ≠ foldName b.length b)
    (ha : keyMatches a k = true) (hb : keyMatches b k = true) : False := by
  have fa : foldName k.length k = foldName a.length a := by
    simp only [keyMatches, Bool.or_eq_true, decide_eq_true_eq] at ha
    rcases ha with h | h
    · rw [h]
    · exact h
  have fb : foldName k.length k = foldName b.length b := by
    simp only [keyMatches, Bool.or_eq_true, decide_eq_true_eq] at hb
    rcases hb with h | h
    · rw [h]
    · exact h
  exact hab (fa.symm.trans fb)

theorem isStringValue_eq (x : JValue) (s : GoString) (h : isStringValue x s = true) :
    x = JValue.str s := by
  cases x <;> simp [isStringValue] at h
  rw [h]

theorem storeString_of_isStringValue (x : JValue) (s old : GoString)
    (h : isStringValue x s = true) : storeString x old = Except.ok s := by
  rw [isStringValue_eq x s h]
  rfl

theorem any_key_of_memberIsString (ms : List (GoString × JValue)) (name s : GoString)
    (h : ms.any (fun m => decide (m.1 = name) && isStringValue m.2 s) = true) :
    ms.any (fun m => keyMatches name m.1) = true := by
  rw [List.any_eq_true] at h ⊢
  obtain ⟨m, hm, hk⟩ := h
  refine ⟨m, hm, ?_⟩
  simp only [Bool.and_eq_true, decide_eq_true_eq] at hk
  rw [hk.1]
  exact keyMatches_self name

theorem storeItemFields_spec (it : MaterialItem) :
    ∀ (ms : List (GoString × JValue)) (it0 : MaterialItem),
      ms.all (fun m => !keyMatches keyMediaID m.1 || isStringValue m.2 it.MediaID) = true →
      ms.all (fun m => !keyMatches keyName m.1 || isStringValue m.2 it.Name) = true →
      ms.all (fun m => !keyMatches keyURL m.1 || isStringValue m.2 it.URL) = true →
      ∃ it1, storeItemFields ms it0 = Except.ok it1 ∧
        it1.MediaID
          = (if ms.any (fun m => keyMatches keyMediaID m.1) = true then it.MediaID
             else it0.MediaID) ∧
        it1.Name
          = (if ms.any (fun m => keyMatches keyName m.1) = true then it.Name else it0.Name) ∧
        it1.URL
          = (if ms.any (fun m => keyMatches keyURL m.1) = true then it.URL else it0.URL) := by
  have d12 : foldName keyMediaID.length keyMediaID ≠ foldName keyName.length keyName := by decide
  have d13 : foldName keyMediaID.length keyMediaID ≠ foldName keyURL.length keyURL := by decide
  have d23 : foldName keyName.length keyName ≠ foldName keyURL.length keyURL := by decide
  intro ms
  induction ms with
  | nil =>
    intro it0 _ _ _
    exact ⟨it0, rfl, by simp, by simp, by simp⟩
  | cons m ms ih =>
    intro it0 h1 h2 h3
    obtain ⟨k, x⟩ := m
    simp only [List.all_cons, Bool.and_eq_true, Bool.or_eq_true, Bool.not_eq_true'] at h1 h2 h3
    obtain ⟨h1a, h1b⟩ := h1
    obtain ⟨h2a, h2b⟩ := h2
    obtain ⟨h3a, h3b⟩ := h3
    by_cases c1 : keyMatches keyMediaID k = true
    · have n2 : keyMatches keyName k = false := by
        cases hk : keyMatches keyName k
        · rfl
        · exact (keyMatches_disjoint _ _ k d12 c1 hk).elim
      have n3 : keyMatches keyURL k = false := by
        cases hk : keyMatches keyURL k
        · rfl
        · exact (keyMatches_disjoint _ _ k d13 c1 hk).elim
      have hx : isStringValue x it.MediaID = true := by
        rcases h1a with h | h
        · rw [c1] at h; cases h
        · exact h
      obtain ⟨it1, e, r1, r2, r3⟩ := ih { it0 with MediaID := it.MediaID } h1b h2b h3b
      refine ⟨it1, ?_, ?_, ?_, ?_⟩
      · simp only [storeItemFields, c1, if_true, storeString_of_isStringValue x _ _ hx]
        exact e
      · rw [r1]; simp only [List.any_cons, c1, Bool.false_or, Bool.true_or, if_true, ite_self]
      · rw [r2]; simp only [List.any_cons, n2, Bool.false_or, Bool.true_or, if_true, ite_self]
      · rw [r3]; simp only [List.any_cons, n3, Bool.false_or, Bool.true_or, if_true, ite_self]
    · have c1f : keyMatches keyMediaID k = false := by
        cases hk : keyMatches keyMediaID k
        · rfl
        · exact (c1 hk).elim
      by_cases c2 : keyMatches keyName k = true
      · have n3 : keyMatches keyURL k = false := by
          cases hk : keyMatches keyURL k
          · rfl
          · exact (keyMatches_disjoint _ _ k d23 c2 hk).elim
        have hx : isStringValue x it.Name = true := by
          rcases h2a with h | h
          · rw [c2] at h; cases h
          · exact h
        obtain ⟨it1, e, r1, r2, r3⟩ := ih { it0 with Name := it.Name } h1b h2b h3b
        refine ⟨it1, ?_, ?_, ?_, ?_⟩
        · simp only [storeItemFields, c1f, c2, if_true, Bool.false_eq_true, if_false,
            storeString_of_isStringValue x _ _ hx]
          exact e
        · rw [r1]; simp only [List.any_cons, c1f, Bool.false_or, Bool.true_or, if_true, ite_self]
        · rw [r2]; simp only [List.any_cons, c2, Bool.false_or, Bool.true_or, if_true, ite_self]
        · rw [r3]; simp only [List.any_cons, n3, Bool.false_or, Bool.true_or, if_true, ite_self]
      · have c2f : keyMatches keyName k = false := by
          cases hk : keyMatches keyName k
          · rfl
          · exact (c2 hk).elim
        by_cases c3 : keyMatches keyURL k = true
        · have hx : isStringValue x it.URL = true := by
            rcases h3a with h | h
            · rw [c3] at h; cases h
            · exact h
          obtain ⟨it1, e, r1, r2, r3⟩ := ih { it0 with URL := it.URL } h1b h2b h3b
          refine ⟨it1, ?_, ?_, ?_, ?_⟩
          · simp only [storeItemFields, c1f, c2f, c3, if_true, Bool.false_eq_true, if_false,
              storeString_of_isStringValue x _ _ hx]
            exact e
          · rw [r1]; simp only [List.any_cons, c1f, Bool.false_or, Bool.true_or, if_true, ite_self]
          · rw [r2]; simp only [List.any_cons, c2f, Bool.false_or, Bool.true_or, if_true, ite_self]
          · rw [r3]; simp only [List.any_cons, c3, Bool.false_or, Bool.true_or, if_true, ite_self]
        · have c3f : keyMatches keyURL k = false := by
            cases hk : keyMatches keyURL k
            · rfl
            · exact (c3 hk).elim
          obtain ⟨it1, e, r1, r2, r3⟩ := ih it0 h1b h2b h3b
          refine ⟨it1, ?_, ?_, ?_, ?_⟩
          · simp only [storeItemFields, c1f, c2f, c3f, Bool.false_eq_true, if_false]
            exact e
          · rw [r1]; simp only [List.any_cons, c1f, Bool.false_or, Bool.true_or, if_true, ite_self]
          · rw [r2]; simp only [List.any_cons, c2f, Bool.false_or, Bool.true_or, if_true, ite_self]
          · rw [r3]; simp only [List.any_cons, c3f, Bool.false_or, Bool.true_or, if_true, ite_self]

theorem storeItem_of_represents (v : JValue) (it base : MaterialItem)
    (h : representsItem v it = true) : storeItem v base = Except.ok it := by
  cases v with
  | obj ms =>
    simp only [representsItem, memberIsString, Bool.and_eq_true] at h
    obtain ⟨⟨⟨a1, b1⟩, ⟨a2, b2⟩⟩, ⟨a3, b3⟩⟩ := h
    obtain ⟨it1, e, r1, r2, r3⟩ := storeItemFields_spec it ms base b1 b2 b3
    rw [if_pos (any_key_of_memberIsString ms _ _ a1)] at r1
    rw [if_pos (any_key_of_memberIsString ms _ _ a2)] at r2
    rw [if_pos (any_key_of_memberIsString ms _ _ a3)] at r3
    have : it1 = it := by
      cases it1; cases it
      simp only at r1 r2 r3
      rw [r1, r2, r3]
    rw [← this]
    exact e
  | null => simp [representsItem] at h
  | bool b => simp [representsItem] at h
  | num l => simp [representsItem] at h
  | str s => simp [representsItem] at h
  | arr xs => simp [representsItem] at h

theorem storeItems_of_represents :
    ∀ (xs : List JValue) (items backing : List MaterialItem),
      representsItems xs items = true → storeItems xs backing = Except.ok items := by
  intro xs
  induction xs with
  | nil =>
    intro items backing h
    cases items with
    | nil => rfl
    | cons it its => simp [representsItems] at h
  | cons x xs ih =>
    intro items backing h
    cases items with
    | nil => simp [representsItems] at h
    | cons it its =>
      simp only [representsItems, Bool.and_eq_true] at h
      simp only [storeItems, storeItem_of_represents x it _ h.1, ih its _ h.2]

theorem storeItemSlice_of_listing (v : JValue) (items : List MaterialItem) (st : ListingState)
    (h : isListingValue v items = true) :
    ∃ st1, storeItemSlice v st = Except.ok st1 ∧ st1.Item = some items ∧
      st1.ErrCode = st.ErrCode ∧ st1.ErrMsg = st.ErrMsg := by
  cases v with
  | arr xs =>
    simp only [isListingValue] at h
    cases xs with
    | nil =>
      cases items with
      | nil => exact ⟨_, rfl, rfl, rfl, rfl⟩
      | cons it its => simp [representsItems] at h
    | cons x xs =>
      have e := storeItems_of_represents (x :: xs) items (st.Item.getD [] ++ st.spare) h
      simp only [storeItemSlice, e]
      exact ⟨_, rfl, rfl, rfl, rfl⟩
  | null => simp [isListingValue] at h
  | bool b => simp [isListingValue] at h
  | num l => simp [isListingValue] at h
  | str s => simp [isListingValue] at h
  | obj ms => simp [isListingValue] at h

theorem storeInt_of_isIntOrNull (x : JValue) (old : Int) (h : isIntOrNull x = true) :
    ∃ n, storeInt x old = Except.ok n := by
  cases x with
  | num lit =>
    simp only [isIntOrNull] at h
    cases hp : parseInt lit with
    | none => rw [hp] at h; cases h
    | some n => exact ⟨n, by simp only [storeInt, hp]⟩
  | null => exact ⟨old, rfl⟩
  | bool b => simp [isIntOrNull] at h
  | str s => simp [isIntOrNull] at h
  | arr xs => simp [isIntOrNull] at h
  | obj ms => simp [isIntOrNull] at h

theorem storeString_of_isStringOrNull (x : JValue) (old : GoString)
    (h : isStringOrNull x = true) : ∃ s, storeString x old = Except.ok s := by
  cases x with
  | str s => exact ⟨s, rfl⟩
  | null => exact ⟨old, rfl⟩
  | bool b => simp [isStringOrNull] at h
  | num l => simp [isStringOrNull] at h
  | arr xs => simp [isStringOrNull] at h
  | obj ms => simp [isStringOrNull] at h

theorem storeResponseFields_spec (items : List MaterialItem) :
    ∀ (ms : List (GoString × JValue)) (st : ListingState),
      ms.all (fun m => !keyMatches keyItem m.1 || isListingValue m.2 items) = true →
      ms.all (fun m => !keyMatches keyErrCode m.1 || isIntOrNull m.2) = true →
      ms.all (fun m => !keyMatches keyErrMsg m.1 || isStringOrNull m.2) = true →
      ∃ st1, storeResponseFields ms st = Except.ok st1 ∧
        st1.Item
          = (if ms.any (fun m => keyMatches keyItem m.1) = true then some items else st.Item) := by
  intro ms
  induction ms with
  | nil =>
    intro st _ _ _
    exact ⟨st, rfl, by simp⟩
  | cons m ms ih =>
    intro st h1 h2 h3
    obtain ⟨k, x⟩ := m
    simp only [List.all_cons, Bool.and_eq_true, Bool.or_eq_true, Bool.not_eq_true'] at h1 h2 h3
    obtain ⟨h1a, h1b⟩ := h1
    obtain ⟨h2a, h2b⟩ := h2
    obtain ⟨h3a, h3b⟩ := h3
    by_cases c1 : keyMatches keyItem k = true
    · have hx : isListingValue x items = true := by
        rcases h1a with h | h
        · rw [c1] at h; cases h
        · exact h
      obtain ⟨st1, e1, i1, _, _⟩ := storeItemSlice_of_listing x items st hx
      obtain ⟨st2, e2, i2⟩ := ih st1 h1b h2b h3b
      refine ⟨st2, ?_, ?_⟩
      · simp only [storeResponseFields, c1, if_true, e1]
        exact e2
      · rw [i2, i1]
        simp only [List.any_cons, c1, Bool.true_or, if_true, ite_self]
    · have c1f : keyMatches keyItem k = false := by
        cases hk : keyMatches keyItem k
        · rfl
        · exact (c1 hk).elim
      by_cases c2 : keyMatches keyErrCode k = true
      · have hx : isIntOrNull x = true := by
          rcases h2a with h | h
          · rw [c2] at h; cases h
          · exact h
        obtain ⟨n, en⟩ := storeInt_of_isIntOrNull x st.ErrCode hx
        obtain ⟨st2, e2, i2⟩ := ih { st with ErrCode := n } h1b h2b h3b
        refine ⟨st2, ?_, ?_⟩
        · simp only [storeResponseFields, c1f, c2, if_true, Bool.false_eq_true, if_false, en]
          exact e2
        · rw [i2]
          simp only [List.any_cons, c1f, Bool.false_or]
      · have c2f : keyMatches keyErrCode k = false := by
          cases hk : keyMatches keyErrCode k
          · rfl
          · exact (c2 hk).elim
        by_cases c3 : keyMatches keyErrMsg k = true
        · have hx : isStringOrNull x = true := by
            rcases h3a with h | h
            · rw [c3] at h; cases h
            · exact h
          obtain ⟨s, es⟩ := storeString_of_isStringOrNull x st.ErrMsg hx
          obtain ⟨st2, e2, i2⟩ := ih { st with ErrMsg := s } h1b h2b h3b
          refine ⟨st2, ?_, ?_⟩
          · simp only [storeResponseFields, c1f, c2f, c3, if_true, Bool.false_eq_true, if_false,
              es]
            exact e2
          · rw [i2]
            simp only [List.any_cons, c1f, Bool.false_or]
        · have c3f : keyMatches keyErrMsg k = false := by
            cases hk : keyMatches keyErrMsg k
            · rfl
            · exact (c3 hk).elim
          obtain ⟨st2, e2, i2⟩ := ih st h1b h2b h3b
          refine ⟨st2, ?_, ?_⟩
          · simp only [storeResponseFields, c1f, c2f, c3f, Bool.false_eq_true, if_false]
            exact e2
          · rw [i2]
            simp only [List.any_cons, c1f, Bool.false_or]

theorem any_key_of_listing (ms : List (GoString × JValue)) (items : List MaterialItem)
    (h : ms.any (fun m => decide (m.1 = keyItem) && isListingValue m.2 items) = true) :
    ms.any (fun m => keyMatches keyItem m.1) = true := by
  rw [List.any_eq_true] at h ⊢
  obtain ⟨m, hm, hk⟩ := h
  refine ⟨m, hm, ?_⟩
  simp only [Bool.and_eq_true, decide_eq_true_eq] at hk
  rw [hk.1]
  exact keyMatches_self keyItem

theorem DecodeMaterialResponse_of_bodyCarries (body : List Nat) (items : List MaterialItem)
    (h : bodyCarries body items = true) :
    ∃ r, DecodeMaterialResponse body = Except.ok r ∧ r.Item = some items := by
  unfold bodyCarries at h
  unfold DecodeMaterialResponse
  cases hv : readValue body with
  | none => rw [hv] at h; cases h
  | some v =>
    rw [hv] at h
    cases v with
    | obj ms =>
      simp only [membersCarry, Bool.and_eq_true] at h
      obtain ⟨⟨⟨ha, h1⟩, h2⟩, h3⟩ := h
      obtain ⟨st1, e1, i1⟩ := storeResponseFields_spec items ms
        { Item := none, spare := [], ErrCode := 0, ErrMsg := [] } h1 h2 h3
      rw [if_pos (any_key_of_listing ms items ha)] at i1
      simp only [e1]
      exact ⟨_, rfl, i1⟩
    | null => cases h
    | bool b => cases h
    | num l => cases h
    | str s => cases h
    | arr xs => cases h

/-! ## The claims -/

/-- C1, cache hit. When `readAccessToken` parses the token file without error into a
credential `c` and `c.ExpiresAt` is greater than the Unix time read for the cache test,
`getAccessToken` returns `c.Token` with the nil error, sends no request (no network event,
request counter unchanged) and leaves the token file untouched (no write event, write counter
and file content unchanged): its only effects are the file read and the clock reading. -/
theorem getAccessToken_cache_hit (config : Config) (w : World) (c : AccessToken)
    (hread : (readAccessToken w).1 = (c, none))
    (hfresh : c.ExpiresAt > w.clock w.ticks) :
    (getAccessToken config w).1 = (c.Token, none) ∧
    (getAccessToken config w).2.sent = w.sent ∧
    networkCalls (getAccessToken config w).2.trace = networkCalls w.trace ∧
    (getAccessToken config w).2.writes = w.writes ∧
    fileWrites (getAccessToken config w).2.trace = fileWrites w.trace ∧
    (getAccessToken config w).2.tokenFile = w.tokenFile ∧
    (getAccessToken config w).2.trace = w.trace ++ [Event.readFile tokenFile, Event.now] := by
  have hw := readAccessToken_world w
  unfold getAccessToken
  rcases hr : readAccessToken w with ⟨⟨tok, e⟩, w1⟩
  rw [hr] at hread hw
  simp only [Prod.mk.injEq] at hread
  obtain ⟨rfl, rfl⟩ := hread
  simp only at hw
  subst hw
  simp [timeNowUnix, hfresh, networkCalls, fileWrites, List.filter_append, Event.isNetwork,
    Event.isWrite]

/-- Witness of C1: the token file holds `tok` with expiry 100 and the clock shows 50. -/
theorem getAccessToken_cache_hit_witness :
    (readAccessToken (sampleWorld (some sampleTokenFile) (fun _ => 50) HttpResult.failed none
        HttpResult.failed)).1 = ({ Token := ascii "tok", ExpiresAt := 100 }, none) ∧
    (getAccessToken sampleConfig (sampleWorld (some sampleTokenFile) (fun _ => 50)
        HttpResult.failed none HttpResult.failed)).1 = (ascii "tok", none) :=
  ⟨by decide,
   (getAccessToken_cache_hit sampleConfig
      (sampleWorld (some sampleTokenFile) (fun _ => 50) HttpResult.failed none HttpResult.failed)
      { Token := ascii "tok", ExpiresAt := 100 } (by decide) (by decide)).1⟩

/-- C2, expiry triggers refresh. When the cache test fails, that is whenever every credential
`readAccessToken` can return without error has `ExpiresAt` at most the Unix time of the test
(the boundary `ExpiresAt = now` included; a missing or unparsable file satisfies this
vacuously), `getAccessToken` runs the refresh path from the world left by the cache test:
exactly one request is sent, the GET of the refresh URL, whatever the endpoint answers; an
error of `fetchNewAccessToken` is returned with the empty string, and a token returned
without error is the token `fetchNewAccessToken` just produced, not the stored one. -/
theorem getAccessToken_refreshes_once (config : Config) (w : World)
    (hmiss : ∀ c, (readAccessToken w).1 = (c, none) → c.ExpiresAt ≤ w.clock w.ticks) :
    getAccessToken config w = refreshAccessToken config (afterCacheTest w) ∧
    networkCalls (afterCacheTest w).trace = networkCalls w.trace ∧
    (getAccessToken config w).2.sent = w.sent + 1 ∧
    networkCalls (getAccessToken config w).2.trace
      = networkCalls w.trace ++ [Event.httpGet (tokenURL config)] ∧
    (∀ e, (fetchNewAccessToken config (afterCacheTest w)).1.2 = some e →
      (getAccessToken config w).1 = ([], some e)) ∧
    ((getAccessToken config w).1.2 = none →
      (getAccessToken config w).1.1
        = (fetchNewAccessToken config (afterCacheTest w)).1.1.Token) := by
  have hm := getAccessToken_miss config w hmiss
  have hf := afterCacheTest_frame w
  have hc := refreshAccessToken_calls config (afterCacheTest w)
  have hr := refreshAccessToken_result config (afterCacheTest w)
  rw [hm]
  refine ⟨rfl, hf.2.2.2.2.2.2.1, ?_, ?_, hr.1, hr.2⟩
  · rw [hc.1, hf.1]
  · rw [hc.2, hf.2.2.2.2.2.2.1]

/-- Witness of C2: the stored credential expires at 100 and the clock shows exactly 100. -/
theorem getAccessToken_refreshes_once_witness :
    (readAccessToken (sampleWorld (some sampleTokenFile) (fun _ => 100) HttpResult.failed none
        HttpResult.failed)).1 = ({ Token := ascii "tok", ExpiresAt := 100 }, none) ∧
    networkCalls (getAccessToken sampleConfig (sampleWorld (some sampleTokenFile) (fun _ => 100)
        HttpResult.failed none HttpResult.failed)).2.trace
      = networkCalls [] ++ [Event.httpGet (tokenURL sampleConfig)] :=
  ⟨by decide,
   (getAccessToken_refreshes_once sampleConfig
      (sampleWorld (some sampleTokenFile) (fun _ => 100) HttpResult.failed none HttpResult.failed)
      (by
        intro c hc
        have h : (readAccessToken (sampleWorld (some sampleTokenFile) (fun _ => 100)
            HttpResult.failed none HttpResult.failed)).1
              = ({ Token := ascii "tok", ExpiresAt := 100 }, none) := by decide
        rw [h] at hc
        have h2 : c.ExpiresAt = 100 := by rw [← (Prod.mk.inj hc).1]
        rw [h2]
        exact le_refl _)).2.2.2.1⟩

/-- C3 as amended, margin. For a refresh response with status 200 whose body decodes to `r`
with a non-empty `access_token` and `expires_in = E`, `E` non-zero, and with `T` the Unix time
`fetchNewAccessToken` reads: the credential returned has `Token = r.AccessToken` and
`ExpiresAt = T + E - 5` reduced to the `int64` range, which is `T + E - 5` exactly whenever
that value fits in an `int64`; and every `getAccessToken` whose cache test fails and leads to
this refresh hands exactly this credential to `os.WriteFile`, the file holding it when the
write succeeds. -/
theorem fetchNewAccessToken_margin (config : Config) (w : World) (r : TokenResponse)
    (hresp : w.tokenEndpoint w.sent (tokenURL config) = HttpResult.response 200 (some r))
    (htok : r.AccessToken ≠ []) (hE : r.ExpiresIn ≠ 0) :
    (fetchNewAccessToken config w).1
      = ({ Token := r.AccessToken, ExpiresAt := wrap64 (w.clock w.ticks + r.ExpiresIn - 5) }, none) ∧
    (inInt64 (w.clock w.ticks + r.ExpiresIn - 5) →
      (fetchNewAccessToken config w).1
        = ({ Token := r.AccessToken, ExpiresAt := w.clock w.ticks + r.ExpiresIn - 5 }, none)) ∧
    (∀ w0 : World, afterCacheTest w0 = w →
      (∀ c, (readAccessToken w0).1 = (c, none) → c.ExpiresAt ≤ w0.clock w0.ticks) →
      fileWrites (getAccessToken config w0).2.trace
        = fileWrites w0.trace ++ [Event.writeFile tokenFile (tokenFileBytes
            { Token := r.AccessToken, ExpiresAt := wrap64 (w.clock w.ticks + r.ExpiresIn - 5) })] ∧
      (w.diskFault w.writes = none →
        (getAccessToken config w0).2.tokenFile = some (tokenFileBytes
            { Token := r.AccessToken, ExpiresAt := wrap64 (w.clock w.ticks + r.ExpiresIn - 5) }) ∧
        (getAccessToken config w0).1 = (r.AccessToken, none))) :=
  refresh_margin_aux config w r hresp htok hE

/-- Witness of C3: a response with `expires_in = 7200` read at Unix time 1000. -/
theorem fetchNewAccessToken_margin_witness :
    (fetchNewAccessToken sampleConfig (sampleWorld none (fun _ => 1000)
        (sampleResponse (ascii "tok") 7200 0) none HttpResult.failed)).1
      = ({ Token := ascii "tok", ExpiresAt := 8195 }, none) :=
  (fetchNewAccessToken_margin sampleConfig
    (sampleWorld none (fun _ => 1000) (sampleResponse (ascii "tok") 7200 0) none HttpResult.failed)
    (sampleBody (ascii "tok") 7200 0)
    rfl (by decide) (by decide)).2.1 (by decide)

/-- Counterexample to C3 as stated: with `expires_in = 9223372036854775807` read at Unix
time 1700000000 the sum wraps; the credential gets `ExpiresAt = -9223372035154775814` while
`T + E - 5 = 9223372038554775802`. -/
theorem fetchNewAccessToken_margin_counterexample :
    (sampleWorld none (fun _ => 1700000000) (sampleResponse (ascii "tok") 9223372036854775807 0)
        none HttpResult.failed).tokenEndpoint 0 (tokenURL sampleConfig)
      = HttpResult.response 200 (some (sampleBody (ascii "tok") 9223372036854775807 0)) ∧
    (fetchNewAccessToken sampleConfig (sampleWorld none (fun _ => 1700000000)
        (sampleResponse (ascii "tok") 9223372036854775807 0) none HttpResult.failed)).1
      = ({ Token := ascii "tok", ExpiresAt := -9223372035154775814 }, none) ∧
    (1700000000 + 9223372036854775807 - 5 : Int) = 9223372038554775802 ∧
    (-9223372035154775814 : Int) ≠ 1700000000 + 9223372036854775807 - 5 := by
  refine ⟨rfl, by decide, by decide, by decide⟩

/-- C4, error precedence. For a refresh response with status 200 whose body decodes to `r`
with an empty `access_token` and a non-zero `errcode`, `fetchNewAccessToken` returns the zero
credential and the API error holding exactly `r.ErrCode` and `r.ErrMsg`: the error is neither
nil nor the invalid-response error. -/
theorem fetchNewAccessToken_api_error (config : Config) (w : World) (r : TokenResponse)
    (hresp : w.tokenEndpoint w.sent (tokenURL config) = HttpResult.response 200 (some r))
    (htok : r.AccessToken = []) (herr : r.ErrCode ≠ 0) :
    (fetchNewAccessToken config w).1
      = ({ Token := [], ExpiresAt := 0 }, some (Err.apiError r.ErrCode r.ErrMsg)) ∧
    (fetchNewAccessToken config w).1.2 ≠ none ∧
    (fetchNewAccessToken config w).1.2 ≠ some Err.tokenResponseInvalid := by
  have h1 : ¬ (r.AccessToken ≠ [] ∧ r.ExpiresIn ≠ 0) := fun h => h.1 htok
  have h : (fetchNewAccessToken config w).1
      = ({ Token := [], ExpiresAt := 0 }, some (Err.apiError r.ErrCode r.ErrMsg)) := by
    unfold fetchNewAccessToken
    simp only [hresp]
    rw [if_neg (show ¬ ((200 : Nat) ≠ 200) by decide), if_neg h1, if_pos herr]
  rw [h]
  exact ⟨rfl, by simp, by simp⟩

/-- Witness of C4: an empty token with `errcode = 40013`. -/
theorem fetchNewAccessToken_api_error_witness :
    (fetchNewAccessToken sampleConfig (sampleWorld none (fun _ => 1000)
        (sampleResponse [] 0 40013) none HttpResult.failed)).1
      = ({ Token := [], ExpiresAt := 0 }, some (Err.apiError 40013 (ascii "msg"))) :=
  (fetchNewAccessToken_api_error sampleConfig
    (sampleWorld none (fun _ => 1000) (sampleResponse [] 0 40013) none HttpResult.failed)
    (sampleBody [] 0 40013) rfl rfl (by decide)).1

/-- C5, listing pass-through. Take a listing response with status 200 whose body is a JSON
object that carries the item list `items` (`bodyCarries`): its member `item` is an array
whose element number `i` is an object with the strings `items[i].MediaID`, `items[i].Name`
and `items[i].URL` under the keys `media_id`, `name` and `url`, whatever the other members,
the order of the members and the white space. Then `Decode` succeeds with exactly `items` in
the field `Item`, and `fetchMediaItems` returns the nil error and exactly `items`: same
length, same order, each field from its own key. The list may have any length, the empty
list included, and `errcode` may be anything. -/
theorem fetchMediaItems_pass_through (accessToken : GoString) (w : World) (body : List Nat)
    (items : List MaterialItem)
    (hresp : w.materialEndpoint w.sent (materialURL accessToken) materialRequestBody
      = HttpResult.response 200 (some body))
    (hbody : bodyCarries body items = true) :
    (fetchMediaItems accessToken w).1 = (some items, none) ∧
    (∃ r, DecodeMaterialResponse body = Except.ok r ∧ r.Item = some items) := by
  obtain ⟨r, hr, hi⟩ := DecodeMaterialResponse_of_bodyCarries body items hbody
  refine ⟨?_, r, hr, hi⟩
  unfold fetchMediaItems
  simp only [hresp, hr, hi]
  rw [if_neg (show ¬ ((200 : Nat) ≠ 200) by decide)]

set_option maxRecDepth 100000 in
/-- Witness of C5: a body with three items, their members in different orders, members the
struct does not know, white space and a trailing newline; and a body with an empty list. -/
theorem fetchMediaItems_pass_through_witness :
    bodyCarries sampleListingBody sampleItems = true ∧
    (fetchMediaItems (ascii "tok") (sampleWorld none (fun _ => 0) HttpResult.failed none
      (HttpResult.response 200 (some sampleListingBody)))).1 = (some sampleItems, none) ∧
    (fetchMediaItems (ascii "tok") (sampleWorld none (fun _ => 0) HttpResult.failed none
      (HttpResult.response 200 (some sampleEmptyListingBody)))).1 = (some [], none) :=
  ⟨by decide,
   (fetchMediaItems_pass_through (ascii "tok")
      (sampleWorld none (fun _ => 0) HttpResult.failed none
        (HttpResult.response 200 (some sampleListingBody)))
      sampleListingBody sampleItems rfl (by decide)).1,
   (fetchMediaItems_pass_through (ascii "tok")
      (sampleWorld none (fun _ => 0) HttpResult.failed none
        (HttpResult.response 200 (some sampleEmptyListingBody)))
      sampleEmptyListingBody [] rfl (by decide)).1⟩

/-- C6 as amended, round trip. For every credential `c` with an `int64` expiry, if
`saveAccessToken c` succeeds then `readAccessToken` on the resulting file returns, with the
nil error, the expiry of `c` and the token of `c` with every byte that is not part of a valid
UTF-8 encoding replaced by U+FFFD; so it returns `c` itself whenever `c.Token` is valid
UTF-8. -/
theorem save_then_read (c : AccessToken) (w : World) (hx : inInt64 c.ExpiresAt)
    (hsave : (saveAccessToken c w).1 = none) :
    (readAccessToken (saveAccessToken c w).2).1
      = ({ Token := toValidUTF8 c.Token, ExpiresAt := c.ExpiresAt }, none) ∧
    (validUTF8 c.Token = true → (readAccessToken (saveAccessToken c w).2).1 = (c, none)) := by
  have hd := (saveAccessToken_ok_iff c w).mp hsave
  have hr : (readAccessToken (saveAccessToken c w).2).1
      = ({ Token := toValidUTF8 c.Token, ExpiresAt := c.ExpiresAt }, none) := by
    apply readAccessToken_tokenFileBytes _ c hx
    rw [saveAccessToken_ok c w hd]
  refine ⟨hr, fun hv => ?_⟩
  rw [hr, toValidUTF8_of_valid _ hv]

/-- Witness of C6: the token `tok` with expiry 100. -/
theorem save_then_read_witness :
    (saveAccessToken { Token := ascii "tok", ExpiresAt := 100 }
      (sampleWorld none (fun _ => 0) HttpResult.failed none HttpResult.failed)).1 = none ∧
    (readAccessToken (saveAccessToken { Token := ascii "tok", ExpiresAt := 100 }
      (sampleWorld none (fun _ => 0) HttpResult.failed none HttpResult.failed)).2).1
      = ({ Token := ascii "tok", ExpiresAt := 100 }, none) :=
  ⟨by decide,
   (save_then_read { Token := ascii "tok", ExpiresAt := 100 }
      (sampleWorld none (fun _ => 0) HttpResult.failed none HttpResult.failed)
      (by decide) (by decide)).2 (by decide)⟩

/-- Counterexample to C6 as stated: the credential whose token is the single byte `0xFF`
(a Go string that is not valid UTF-8) is saved without error and read back without error,
but with the three-byte token U+FFFD. -/
theorem save_then_read_counterexample :
    (saveAccessToken { Token := [0xFF], ExpiresAt := 0 }
      (sampleWorld none (fun _ => 0) HttpResult.failed none HttpResult.failed)).1 = none ∧
    (readAccessToken (saveAccessToken { Token := [0xFF], ExpiresAt := 0 }
      (sampleWorld none (fun _ => 0) HttpResult.failed none HttpResult.failed)).2).1
      = ({ Token := [0xEF, 0xBF, 0xBD], ExpiresAt := 0 }, none) ∧
    (readAccessToken (saveAccessToken { Token := [0xFF], ExpiresAt := 0 }
      (sampleWorld none (fun _ => 0) HttpResult.failed none HttpResult.failed)).2).1
      ≠ ({ Token := [0xFF], ExpiresAt := 0 }, none) := by
  refine ⟨by decide, by decide, by decide⟩

/-- C7, persistence failure is fatal. When the cache test fails, `fetchNewAccessToken`
returns a credential `newToken` with the nil error, and `saveAccessToken` returns an error
`e`, `getAccessToken` returns the empty string together with the error wrapping `e`. -/
theorem getAccessToken_save_failure (config : Config) (w w1 : World) (newToken : AccessToken)
    (e : Err)
    (hmiss : ∀ c, (readAccessToken w).1 = (c, none) → c.ExpiresAt ≤ w.clock w.ticks)
    (hfetch : fetchNewAccessToken config (afterCacheTest w) = ((newToken, none), w1))
    (hsave : (saveAccessToken newToken w1).1 = some e) :
    (getAccessToken config w).1 = ([], some (Err.saveTokenFailed e)) := by
  rw [getAccessToken_miss config w hmiss, refreshAccessToken_of_fetch config _ w1 newToken hfetch]
  rcases hsv : saveAccessToken newToken w1 with ⟨e2, w2⟩
  rw [hsv] at hsave
  simp only at hsave
  subst hsave
  rfl

/-- Witness of C7: no token file, a good refresh response, and a disk that rejects the
write. -/
theorem getAccessToken_save_failure_witness :
    (getAccessToken sampleConfig (sampleWorld none (fun _ => 1000)
        (sampleResponse (ascii "tok") 7200 0) (some none) HttpResult.failed)).1
      = ([], some (Err.saveTokenFailed (Err.writeTokenFailed Err.os))) :=
  getAccessToken_save_failure sampleConfig
    (sampleWorld none (fun _ => 1000) (sampleResponse (ascii "tok") 7200 0) (some none)
      HttpResult.failed)
    (fetchNewAccessToken sampleConfig (afterCacheTest (sampleWorld none (fun _ => 1000)
      (sampleResponse (ascii "tok") 7200 0) (some none) HttpResult.failed))).2
    { Token := ascii "tok", ExpiresAt := 8195 } (Err.writeTokenFailed Err.os)
    (by
      intro c hc
      have h : (readAccessToken (sampleWorld none (fun _ => 1000)
          (sampleResponse (ascii "tok") 7200 0) (some none) HttpResult.failed)).1.2
            = some Err.os := by decide
      rw [hc] at h
      cases h)
    (by
      apply Prod.ext
      · decide
      · rfl)
    (by decide)

/-- C8, config validation. When the configuration file parses to a configuration whose
`AppID` or `Secret` is empty (a document without the key `secret` leaves `Secret` empty),
`loadConfig` returns the zero configuration and the missing-field error, and `main` ends with
that error fatally having done nothing but read the configuration file: no request is sent
and neither `getAccessToken` nor `fetchMediaItems` leaves any effect. -/
theorem main_config_missing_field (w : World) (config : Config)
    (hdoc : w.configDoc configFile = ConfigDoc.parsed config)
    (hempty : config.AppID = [] ∨ config.Secret = []) :
    (loadConfig configFile w).1 = ({ AppID := [], Secret := [] }, some Err.configMissingField) ∧
    (main w).1 = some (Err.fatalLoadConfig Err.configMissingField) ∧
    (main w).2.sent = w.sent ∧
    networkCalls (main w).2.trace = networkCalls w.trace ∧
    (main w).2.trace = w.trace ++ [Event.readFile configFile] := by
  have hl : loadConfig configFile w
      = (({ AppID := [], Secret := [] }, some Err.configMissingField),
         { w with trace := w.trace ++ [Event.readFile configFile] }) := by
    unfold loadConfig
    simp only [hdoc]
    rw [if_pos hempty]
  unfold main
  rw [hl]
  simp [networkCalls, List.filter_append, Event.isNetwork]

/-- Witness of C8: a configuration with an application id and no secret. -/
theorem main_config_missing_field_witness :
    (main (sampleConfigWorld { AppID := ascii "wx1", Secret := [] })).1
      = some (Err.fatalLoadConfig Err.configMissingField) :=
  (main_config_missing_field (sampleConfigWorld { AppID := ascii "wx1", Secret := [] })
    { AppID := ascii "wx1", Secret := [] } rfl (Or.inr rfl)).2.1

/-- C9 as amended, token presence wins. For a refresh response with status 200 whose body
decodes to `r` with a non-empty `access_token`, a non-zero `errcode` and a non-zero
`expires_in`, `fetchNewAccessToken` returns a credential holding `r.AccessToken` and the nil
error. -/
theorem fetchNewAccessToken_token_wins (config : Config) (w : World) (r : TokenResponse)
    (hresp : w.tokenEndpoint w.sent (tokenURL config) = HttpResult.response 200 (some r))
    (htok : r.AccessToken ≠ []) (herr : r.ErrCode ≠ 0) (hE : r.ExpiresIn ≠ 0) :
    (fetchNewAccessToken config w).1.1.Token = r.AccessToken ∧
    (fetchNewAccessToken config w).1.2 = none := by
  have _ := herr
  rw [fetchNewAccessToken_success config w r hresp htok hE]
  exact ⟨rfl, rfl⟩

/-- Witness of C9: a token together with `errcode = 40013` and `expires_in = 7200`. -/
theorem fetchNewAccessToken_token_wins_witness :
    (fetchNewAccessToken sampleConfig (sampleWorld none (fun _ => 1000)
        (sampleResponse (ascii "tok") 7200 40013) none HttpResult.failed)).1.2 = none :=
  (fetchNewAccessToken_token_wins sampleConfig
    (sampleWorld none (fun _ => 1000) (sampleResponse (ascii "tok") 7200 40013) none
      HttpResult.failed)
    (sampleBody (ascii "tok") 7200 40013) rfl (by decide) (by decide) (by decide)).2

/-- Counterexample to C9 as stated: a response with a non-empty token, `errcode = 40013` and
`expires_in = 0` is answered with the API error, not with a credential. -/
theorem fetchNewAccessToken_token_wins_counterexample :
    (sampleWorld none (fun _ => 1000) (sampleResponse (ascii "tok") 0 40013) none
        HttpResult.failed).tokenEndpoint 0 (tokenURL sampleConfig)
      = HttpResult.response 200 (some (sampleBody (ascii "tok") 0 40013)) ∧
    (sampleBody (ascii "tok") 0 40013).AccessToken ≠ [] ∧
    (sampleBody (ascii "tok") 0 40013).ErrCode ≠ 0 ∧
    (fetchNewAccessToken sampleConfig (sampleWorld none (fun _ => 1000)
        (sampleResponse (ascii "tok") 0 40013) none HttpResult.failed)).1
      = ({ Token := [], ExpiresAt := 0 }, some (Err.apiError 40013 (ascii "msg"))) := by
  refine ⟨rfl, by decide, by decide, by decide⟩

/-- C10 as amended, short lifetimes. Take a run of `getAccessToken` whose cache test fails,
whose refresh response has a non-empty token and `expires_in = E` with `E` non-zero and at
most 5, read at Unix time `T`, and whose write succeeds. If `T + E - 5` is not below the
`int64` range, then `fetchNewAccessToken` succeeds, `getAccessToken` returns the token and
the token file holds the credential with `ExpiresAt = T + E - 5`, which is at most `T`; so in
every later world holding that file whose clock shows `T` or more, `getAccessToken` fails
the cache test and sends a refresh request again. -/
theorem short_lifetime_never_cached (config : Config) (w : World) (r : TokenResponse)
    (hmiss : ∀ c, (readAccessToken w).1 = (c, none) → c.ExpiresAt ≤ w.clock w.ticks)
    (hresp : w.tokenEndpoint w.sent (tokenURL config) = HttpResult.response 200 (some r))
    (htok : r.AccessToken ≠ []) (hE : r.ExpiresIn ≠ 0) (hshort : r.ExpiresIn ≤ 5)
    (hT : inInt64 (w.clock (afterCacheTest w).ticks))
    (hnowrap : -(2 ^ 63) ≤ w.clock (afterCacheTest w).ticks + r.ExpiresIn - 5)
    (hdisk : w.diskFault w.writes = none) :
    (fetchNewAccessToken config (afterCacheTest w)).1
      = ({ Token := r.AccessToken,
           ExpiresAt := w.clock (afterCacheTest w).ticks + r.ExpiresIn - 5 }, none) ∧
    (getAccessToken config w).1 = (r.AccessToken, none) ∧
    (getAccessToken config w).2.tokenFile
      = some (tokenFileBytes
          { Token := r.AccessToken,
            ExpiresAt := w.clock (afterCacheTest w).ticks + r.ExpiresIn - 5 }) ∧
    w.clock (afterCacheTest w).ticks + r.ExpiresIn - 5 ≤ w.clock (afterCacheTest w).ticks ∧
    (∀ (config2 : Config) (w2 : World),
      w2.tokenFile = (getAccessToken config w).2.tokenFile →
      w.clock (afterCacheTest w).ticks ≤ w2.clock w2.ticks →
      getAccessToken config2 w2 = refreshAccessToken config2 (afterCacheTest w2) ∧
      (getAccessToken config2 w2).2.sent = w2.sent + 1 ∧
      networkCalls (getAccessToken config2 w2).2.trace
        = networkCalls w2.trace ++ [Event.httpGet (tokenURL config2)]) := by
  have hfr := afterCacheTest_frame w
  obtain ⟨hsent, hwrites, _, hep, hdf, hclock, _, _⟩ := hfr
  have hin : inInt64 (w.clock (afterCacheTest w).ticks + r.ExpiresIn - 5) := by
    unfold inInt64 at hT ⊢
    constructor
    · exact hnowrap
    · omega
  have hresp2 : (afterCacheTest w).tokenEndpoint (afterCacheTest w).sent (tokenURL config)
      = HttpResult.response 200 (some r) := by rw [hep, hsent]; exact hresp
  have hdisk2 : (afterCacheTest w).diskFault (afterCacheTest w).writes = none := by
    rw [hdf, hwrites]; exact hdisk
  have hm := refresh_margin_aux config (afterCacheTest w) r hresp2 htok hE
  rw [hclock] at hm
  obtain ⟨hm1, _, hm3⟩ := hm
  have hwr := wrap64_of_inInt64 _ hin
  rw [hwr] at hm1 hm3
  obtain ⟨_, hm4⟩ := hm3 w rfl hmiss
  obtain ⟨hfile, hres⟩ := hm4 hdisk2
  refine ⟨hm1, hres, hfile, by omega, ?_⟩
  intro config2 w2 hfile2 hlater
  rw [hfile] at hfile2
  have hrd := readAccessToken_tokenFileBytes w2
    { Token := r.AccessToken, ExpiresAt := w.clock (afterCacheTest w).ticks + r.ExpiresIn - 5 }
    hin hfile2
  have hmiss2 : ∀ c, (readAccessToken w2).1 = (c, none) → c.ExpiresAt ≤ w2.clock w2.ticks := by
    intro c hc
    rw [hrd] at hc
    have h2 : c.ExpiresAt = w.clock (afterCacheTest w).ticks + r.ExpiresIn - 5 := by
      rw [← (Prod.mk.inj hc).1]
    rw [h2]
    omega
  have h := getAccessToken_refreshes_once_aux config2 w2 hmiss2
  exact h

/-- Witness of C10: nothing cached, `expires_in = 3` read at Unix time 1000. -/
theorem short_lifetime_never_cached_witness :
    (getAccessToken sampleConfig (sampleWorld none (fun _ => 1000)
        (sampleResponse (ascii "tok") 3 0) none HttpResult.failed)).2.tokenFile
      = some (tokenFileBytes { Token := ascii "tok", ExpiresAt := 998 }) :=
  (short_lifetime_never_cached sampleConfig
    (sampleWorld none (fun _ => 1000) (sampleResponse (ascii "tok") 3 0) none HttpResult.failed)
    (sampleBody (ascii "tok") 3 0)
    (by
      intro c hc
      have h : (readAccessToken (sampleWorld none (fun _ => 1000)
          (sampleResponse (ascii "tok") 3 0) none HttpResult.failed)).1.2
            = some Err.os := by decide
      rw [hc] at h
      cases h)
    rfl (by decide) (by decide) (by decide) (by decide) (by decide) rfl).2.2.1

set_option maxRecDepth 100000 in
/-- Counterexample to C10 as stated: nothing cached, `expires_in = -9223372036854775808`
read at Unix time 0 (the clock shows 0, then 1, 2, ...). `T + E - 5` wraps to
`9223372036854775803`: the refresh succeeds and the credential is persisted with that expiry,
greater than `T`, and the next `getAccessToken`, one second later, returns the token from the
cache without sending a request. -/
theorem short_lifetime_never_cached_counterexample :
    (getAccessToken sampleConfig (sampleWorld none (fun k => (k : Int))
        (sampleResponse (ascii "tok") (-9223372036854775808) 0) none HttpResult.failed)).1
      = (ascii "tok", none) ∧
    (getAccessToken sampleConfig (sampleWorld none (fun k => (k : Int))
        (sampleResponse (ascii "tok") (-9223372036854775808) 0) none HttpResult.failed)).2.tokenFile
      = some (tokenFileBytes { Token := ascii "tok", ExpiresAt := 9223372036854775803 }) ∧
    (getAccessToken sampleConfig (sampleWorld none (fun k => (k : Int))
        (sampleResponse (ascii "tok") (-9223372036854775808) 0) none HttpResult.failed)).2.sent
      = 1 ∧
    (getAccessToken sampleConfig (getAccessToken sampleConfig (sampleWorld none
        (fun k => (k : Int)) (sampleResponse (ascii "tok") (-9223372036854775808) 0) none
        HttpResult.failed)).2).1 = (ascii "tok", none) ∧
    (getAccessToken sampleConfig (getAccessToken sampleConfig (sampleWorld none
        (fun k => (k : Int)) (sampleResponse (ascii "tok") (-9223372036854775808) 0) none
        HttpResult.failed)).2).2.sent = 1 ∧
    (getAccessToken sampleConfig (getAccessToken sampleConfig (sampleWorld none
        (fun k => (k : Int)) (sampleResponse (ascii "tok") (-9223372036854775808) 0) none
        HttpResult.failed)).2).2.trace
      = [Event.readFile tokenFile, Event.httpGet (tokenURL sampleConfig), Event.now,
         Event.writeFile tokenFile
           (tokenFileBytes { Token := ascii "tok", ExpiresAt := 9223372036854775803 }),
         Event.readFile tokenFile, Event.now] := by
  refine ⟨by decide, by decide, by decide, by decide, by decide, by decide⟩

end WxImageList
